import Mathlib

/-!
# neon-image-syncd: the `/v1/sync` handler as a transition system

`v1Sync` (main.go) starts rsync, reads its two output pipes in two goroutines,
awaits it in a third, and streams the events the three send over one unbuffered
channel to the HTTP response.  The handler, its three goroutines and the subprocess
are embedded as five tasks over one shared state; a run is a schedule, the list of
the tasks in the order in which they take their steps.  The results of the calls into
the operating system (pipes, process start, process exit, the text the subprocess
writes, the reads that fail, the size of a pipe) are the environment `Env` of a run.

The first part is the run of one request whose client stays connected.  The
second part is the server: any number of requests, `rsyncMutex`, and clients that
may go away.  The last part is the choice of the listener in `main`.
-/

namespace NeonImageSyncd

/-! ## Data model -/

/-- Event is a helper struct to queue up events for streaming. -/
structure Event where
  name : String
  data : String
deriving DecidableEq, Repr

/-- What the calls of one run of `v1Sync` into the world outside return.  An
error is given by its description (`err.Error()`); `none` is Go's `nil`.
* `stdout` and `stderr` are the texts the subprocess writes to its two output
  channels before it exits, if it is never kept from writing;
* `stdoutReadErr` and `stderrReadErr` tell whether a read of the pipe fails with an
  error other than the end of the data, and after how many characters of the text
  (`none`: no read fails);
* `pipeSize` is the number of bytes a pipe of the operating system holds: a process
  that writes to a full pipe blocks until the other end has been read from;
* `waitErr` is what `cmd.Wait` returns once the process has exited. -/
structure Env where
  stdoutPipeErr : Option String
  stderrPipeErr : Option String
  startErr : Option String
  stdout : String
  stderr : String
  stdoutReadErr : Option Nat
  stderrReadErr : Option Nat
  pipeSize : Nat
  waitErr : Option String
deriving DecidableEq, Repr

/-- The subprocess of a run: `cmd.Start` not yet called, the process running,
`cmd.Start` failed, the process gone after it has written all its output (`ended`),
or `cmd.Wait` returned (`exited`). -/
inductive Proc where
  | notStarted
  | running
  | startFailed
  | ended
  | exited
deriving DecidableEq, Repr

/-- The writing end of the output pipes is closed: by the failed `cmd.Start`, or by
the end of the process. -/
def Proc.pipesClosed : Proc → Bool
  | .startFailed => true
  | .ended => true
  | .exited => true
  | _ => false

/-- The reading end of an output pipe of the subprocess with the `bufio.Scanner` on
it.
* `lines` are the raw lines (the pieces between the line feeds) of what can be read of
  the text of the channel that the scanner has not taken yet, written by the subprocess
  or yet to be written: the times and the order of its writes to the two channels are
  not part of the environment;
* `held` is the number of bytes of the first of them that the scanner already holds
  in its buffer;
* `fails` tells whether the read after these lines fails;
* `beyond` is the number of bytes of the text that come after the read that fails. -/
structure Pipe where
  lines : List String
  held : Nat
  fails : Bool
  beyond : Nat
deriving DecidableEq, Repr

/-- The pipe of a process that has not been started. -/
def Pipe.empty : Pipe :=
  { lines := [], held := 0, fails := false, beyond := 0 }

/-- Where a reader goroutine (main.go 123-129 for stdout, 132-138 for stderr)
stands. -/
inductive Reader where
  /-- the `go` statement has not run yet -/
  | unspawned
  /-- about to call `s.Scan()` -/
  | scan
  /-- `s.Scan()` returned true: blocked in `events <- Event{name, s.Text()}` -/
  | send (line : String)
  /-- `s.Scan()` returned false: about to call `wg.Done()` -/
  | loopDone
  /-- the goroutine has returned -/
  | done
  /-- the goroutine panicked: it sent on the closed channel -/
  | panicked
deriving DecidableEq, Repr

/-- Where the waiter goroutine (main.go 140-166) stands. -/
inductive Waiter where
  | unspawned
  /-- about to run `err = cmd.Start()` -/
  | start
  /-- `cmd.Start` failed: blocked in `events <- Event{"error", err.Error()}` (143) -/
  | sendStartErr (data : String)
  /-- about to run `panic(err)` (149) -/
  | panicStart
  /-- blocked in `wg.Wait()` (154) -/
  | wgWait
  /-- about to run `err = cmd.Wait()` (157) -/
  | cmdWait
  /-- blocked in `events <- Event{"error", ...}` (158) -/
  | sendExit (data : String)
  /-- about to run `close(events)` (165) -/
  | close
  /-- the goroutine has returned -/
  | done
  /-- the goroutine panicked -/
  | panicked
deriving DecidableEq, Repr

/-- Where the request handler, the goroutine that runs `v1Sync` itself, stands
once it holds `rsyncMutex`. -/
inductive Handler where
  /-- about to call `cmd.StdoutPipe()` (107) -/
  | stdoutPipe
  /-- about to call `cmd.StderrPipe()` (111) -/
  | stderrPipe
  /-- about to run `wg.Add(1); go func() {...}()` for stdout (122-129) -/
  | goStdout
  /-- about to run `wg.Add(1); go func() {...}()` for stderr (131-138) -/
  | goStderr
  /-- about to run `go func() {...}()` for the waiter (140-166) -/
  | goWaiter
  /-- inside `c.Stream`, about to call the step function (171) -/
  | stream
  /-- inside the step function, blocked in `event, ok := <-events` (172) -/
  | receive
  /-- inside the step function, about to run `c.SSEvent(event.name, event.data)`
  and return true (173-174) -/
  | ssevent (event : Event)
  /-- leaving `v1Sync`, about to run the deferred `rsyncMutex.Unlock()` (95);
  `panicking` tells whether it leaves by a panic -/
  | unlock (panicking : Bool)
  /-- `v1Sync` is left and the mutex released -/
  | returned (panicked : Bool)
deriving DecidableEq, Repr

/-- The tasks of one run: the handler, its three goroutines, and the subprocess. -/
inductive Task where
  | handler
  | stdoutReader
  | stderrReader
  | waiter
  | subprocess
deriving DecidableEq, Repr

/-- The state the tasks of one run share.
* `wg` is the counter of the `sync.WaitGroup`;
* `closed` tells whether `close(events)` has run;
* `crashed` tells whether a goroutine other than the handler has panicked, which
  ends the whole process;
* `stdoutPipe`, `stderrPipe` are the two output pipes with their scanners;
* `sent` is the sequence of events handed over on the `events` channel, oldest
  first;
* `body` is the response body written so far. -/
structure Run where
  handler : Handler
  stdout : Reader
  stderr : Reader
  waiter : Waiter
  proc : Proc
  wg : Nat
  closed : Bool
  crashed : Bool
  stdoutPipe : Pipe
  stderrPipe : Pipe
  sent : List Event
  body : String
deriving DecidableEq, Repr

/-- The state in which `v1Sync` has just taken `rsyncMutex` (94-95). -/
def Run.init : Run :=
  { handler := .stdoutPipe, stdout := .unspawned, stderr := .unspawned, waiter := .unspawned,
    proc := .notStarted, wg := 0, closed := false, crashed := false,
    stdoutPipe := Pipe.empty, stderrPipe := Pipe.empty, sent := [], body := "" }

/-! ## bufio.Scanner

`bufio.NewScanner(stdout)` (124, 133) makes a scanner with the split function
`bufio.ScanLines` and a buffer of at most `bufio.MaxScanTokenSize` bytes; main.go sets
no other.  `s.Scan()` returns true with the next line as its token, and false at the
end of the data, at a line that does not fit the buffer together with its line feed,
and after a read that has failed.  A read that fails is to the scanner the end of the
data: it yields the lines it has read, the last of them also when its line feed is yet
to come, and then returns false.  main.go does not call `s.Err()`: for the loop
`for s.Scan()` the three ends are the same. -/

/-- Go's `len` of a string: its length in bytes. -/
def len (s : String) : Nat :=
  s.utf8ByteSize

/-- `bufio.MaxScanTokenSize`: the largest buffer of a scanner, 64 * 1024 bytes. -/
def MaxScanTokenSize : Nat :=
  64 * 1024

/-- The raw lines the function `bufio.ScanLines` cuts a text into, a carriage return
at their end not yet dropped: a line ends at each line feed, and what follows the last
line feed is a line if it is not empty.  `cur` is the part of the line read so far. -/
def splitLines : List Char → List Char → List String
  | cur, [] => if cur.isEmpty then [] else [String.mk cur]
  | cur, c :: cs =>
    if c = '\n' then String.mk cur :: splitLines [] cs else splitLines (cur ++ [c]) cs

/-- The raw lines of a text. -/
def rawLines (text : String) : List String :=
  splitLines [] text.data

/-- The function `dropCR` of `bufio.ScanLines`: drops a carriage return at the end of
the line. -/
def dropCR (data : String) : String :=
  if data.data.getLast? = some '\r' then String.mk data.data.dropLast else data

/-- The line-split of a text: the tokens of `bufio.ScanLines` over the whole of it,
each line without its end-of-line marker. -/
def lineSplit (text : String) : List String :=
  (rawLines text).map dropCR

/-- The part of a text that can be read: all of it when no read fails, its first
`k` characters when the reads fail from there on. -/
def readable (text : String) (readErr : Option Nat) : String :=
  match readErr with
  | none => text
  | some k => String.mk (text.data.take k)

/-- The pipe of a channel when the process is started. -/
def Pipe.start (text : String) (readErr : Option Nat) : Pipe :=
  { lines := rawLines (readable text readErr), held := 0, fails := readErr.isSome,
    beyond := len text - len (readable text readErr) }

/-- One call of `s.Scan()` on a pipe whose writing end is closed or not (`closed`):
`none` when the call blocks, for want of data on a pipe not closed; `some (none, _)`
when it returns false; `some (some text, _)` when it returns true, `text` being what
`s.Text()` then returns; and the pipe after the call.
* A line of less than `MaxScanTokenSize` bytes fits the buffer together with its line
  feed, and is the token, without its carriage return.
* A longer line fills the buffer, and the scan ends, with `MaxScanTokenSize` bytes of
  the line taken from the pipe and the rest of the output left in it.
* After the last line the scan ends when the read fails or the pipe is closed. -/
def Scan (closed : Bool) (pipe : Pipe) : Option (Option String × Pipe) :=
  match pipe.lines with
  | [] => if pipe.fails || closed then some (none, pipe) else none
  | raw :: rest =>
    if len raw < MaxScanTokenSize then
      some (some (dropCR raw), { pipe with lines := rest, held := 0 })
    else some (none, { pipe with held := MaxScanTokenSize })

/-- The number of bytes of its output the subprocess has to get rid of into the pipe:
those of the lines not taken by the scanner, a line feed counted for each, less what
the scanner holds of the first, and those beyond a read that fails.  What a scanner
reads ahead of the line it yields is counted as not read. -/
def Pipe.unread (pipe : Pipe) : Nat :=
  (pipe.lines.map (fun raw => len raw + 1)).sum - pipe.held + pipe.beyond

/-! ## The operations -/

/-- The closure of main.go 143-148 and 158-163:
`func() string { if err != nil { return err.Error() }; return "" }()`. -/
def errorData (err : Option String) : String :=
  match err with
  | some description => description
  | none => ""

/-- Modelled from the spec: `c.SSEvent(name, data)` of the gin library, whose code is
not part of main.go.  It writes one server-sent-event frame,
`event:<name>\ndata:<data>\n\n` (spec §6; the response examples in the comment of
`v1Sync`, main.go 61-92, show the same frames). -/
def SSEvent (name data : String) : String :=
  "event:" ++ name ++ "\ndata:" ++ data ++ "\n\n"

/-- The frame of an event, as the step function writes it (173). -/
def Event.frame (e : Event) : String :=
  SSEvent e.name e.data

/-- The concatenation of the frames of a sequence of events. -/
def frames : List Event → String
  | [] => ""
  | e :: es => e.frame ++ frames es

/-- A send `events <- e` on the unbuffered channel.  It panics when the channel is
closed (`none` inside); otherwise it completes only together with the receive of the
handler, which must be blocked in `<-events`; the handler then holds the event. -/
def Run.send (e : Event) (s : Run) : Option (Option Run) :=
  if s.closed then some none
  else if s.handler = .receive then
    some (some { s with sent := s.sent ++ [e], handler := .ssevent e })
  else none

/-- Modelled from the spec: `c.Stream(step)` of the gin library, whose code is not part
of main.go.  It pulls one event per call of the step function and stops once the
sequence is exhausted (spec §4.4; the comment at main.go 168-170): after a call that
returned `keepOpen` it calls the step function again when `keepOpen` is true and
returns to `v1Sync` when it is false.  The function of the library returns in one
more case, when the client has gone away; that is the action `clientGone` of the
server below and no step of a run. -/
def Stream (keepOpen : Bool) : Handler :=
  if keepOpen then .stream else .unlock false

/-- One step of the handler.  The step function (171-177) returns true after it has
written the event it received, and false when the channel is closed. -/
def Run.handlerStep (env : Env) (s : Run) : Option Run :=
  match s.handler with
  | .stdoutPipe =>
    match env.stdoutPipeErr with
    | some _ => some { s with handler := .unlock true }
    | none => some { s with handler := .stderrPipe }
  | .stderrPipe =>
    match env.stderrPipeErr with
    | some _ => some { s with handler := .unlock true }
    | none => some { s with handler := .goStdout }
  | .goStdout => some { s with wg := s.wg + 1, stdout := .scan, handler := .goStderr }
  | .goStderr => some { s with wg := s.wg + 1, stderr := .scan, handler := .goWaiter }
  | .goWaiter => some { s with waiter := .start, handler := Stream true }
  | .stream => some { s with handler := .receive }
  | .receive => if s.closed then some { s with handler := Stream false } else none
  | .ssevent e => some { s with body := s.body ++ e.frame, handler := Stream true }
  | .unlock p => some { s with handler := .returned p }
  | .returned _ => none

/-- One step of a reader goroutine that stands at `r` and reads from `pipe`: the new
place of the goroutine, the pipe after the step, and the new shared state.  `Scan`
blocks as long as the process has not been started: its pipe has neither data nor an
end.  When `Scan` returns false the loop is left, whatever made it return false, and
whatever is left in the pipe. -/
def Run.readerStep (name : String) (r : Reader) (pipe : Pipe) (s : Run) :
    Option (Reader × Pipe × Run) :=
  match r with
  | .unspawned => none
  | .scan =>
    match s.proc with
    | .notStarted => none
    | proc =>
      match Scan proc.pipesClosed pipe with
      | none => none
      | some (none, pipe') => some (.loopDone, pipe', s)
      | some (some text, pipe') => some (.send text, pipe', s)
  | .send line =>
    match s.send ⟨name, line⟩ with
    | none => none
    | some none => some (.panicked, pipe, { s with crashed := true })
    | some (some s') => some (.scan, pipe, s')
  | .loopDone => some (.done, pipe, { s with wg := s.wg - 1 })
  | .done => none
  | .panicked => none

/-- One step of the waiter goroutine.  `cmd.Wait` returns once the process has
ended. -/
def Run.waiterStep (env : Env) (s : Run) : Option Run :=
  match s.waiter with
  | .unspawned => none
  | .start =>
    match env.startErr with
    | some description =>
      some { s with proc := .startFailed, waiter := .sendStartErr (errorData (some description)) }
    | none =>
      some { s with proc := .running,
                    stdoutPipe := Pipe.start env.stdout env.stdoutReadErr,
                    stderrPipe := Pipe.start env.stderr env.stderrReadErr,
                    waiter := .wgWait }
  | .sendStartErr data =>
    match s.send ⟨"error", data⟩ with
    | none => none
    | some none => some { s with waiter := .panicked, crashed := true }
    | some (some s') => some { s' with waiter := .panicStart }
  | .panicStart => some { s with waiter := .panicked, crashed := true }
  | .wgWait => if s.wg = 0 then some { s with waiter := .cmdWait } else none
  | .cmdWait =>
    match s.proc with
    | .ended => some { s with proc := .exited, waiter := .sendExit (errorData env.waitErr) }
    | _ => none
  | .sendExit data =>
    match s.send ⟨"error", data⟩ with
    | none => none
    | some none => some { s with waiter := .panicked, crashed := true }
    | some (some s') => some { s' with waiter := .close }
  | .close => some { s with closed := true, waiter := .done }
  | .done => none
  | .panicked => none

/-- The step of the subprocess: it ends, once it has written all its output.  It can
have done so when what is not yet read of either channel is no more than a pipe holds;
as long as there is more, it is blocked in a write to a full pipe, or will be. -/
def Run.processStep (env : Env) (s : Run) : Option Run :=
  match s.proc with
  | .running =>
    if s.stdoutPipe.unread ≤ env.pipeSize ∧ s.stderrPipe.unread ≤ env.pipeSize then
      some { s with proc := .ended }
    else none
  | _ => none

/-- One step of task `t`; `none` when the task is blocked or has ended, or when the
process has crashed. -/
def Run.step (env : Env) (t : Task) (s : Run) : Option Run :=
  if s.crashed then none
  else
    match t with
    | .handler => s.handlerStep env
    | .stdoutReader =>
      match s.readerStep "stdout" s.stdout s.stdoutPipe with
      | none => none
      | some (r, pipe, s') => some { s' with stdout := r, stdoutPipe := pipe }
    | .stderrReader =>
      match s.readerStep "stderr" s.stderr s.stderrPipe with
      | none => none
      | some (r, pipe, s') => some { s' with stderr := r, stderrPipe := pipe }
    | .waiter => s.waiterStep env
    | .subprocess => s.processStep env

/-- Runs a schedule from state `s`: `none` when it asks a task to step that cannot.
A schedule is one interleaving of the tasks of a request whose client stays
connected. -/
def Run.exec (env : Env) (s : Run) : List Task → Option Run
  | [] => some s
  | t :: ts =>
    match s.step env t with
    | none => none
    | some s' => Run.exec env s' ts

/-- The handler `v1Sync` (main.go 93-178) from the moment it holds `rsyncMutex`, in
environment `env` and under the interleaving `sched` of its tasks: the state it
reaches. -/
def v1Sync (env : Env) (sched : List Task) : Option Run :=
  Run.exec env Run.init sched

/-- The states a run of `v1Sync` in environment `env` passes through. -/
def Reachable (env : Env) (s : Run) : Prop :=
  ∃ sched, v1Sync env sched = some s

/-- The data of the events named `name` among `evs`, in order. -/
def dataOf (name : String) (evs : List Event) : List String :=
  (evs.filter (fun e => e.name = name)).map Event.data

/-! ## The invariant of a run -/

/-- No event of `evs` is named "error". -/
def NoError (evs : List Event) : Prop :=
  ∀ e ∈ evs, e.name ≠ "error"

/-- The sequence `evs` ends in the event `{"error", data}`, its only event of that
name. -/
def Terminal (data : String) (evs : List Event) : Prop :=
  ∃ pre, evs = pre ++ [⟨"error", data⟩] ∧ NoError pre

/-- Every event of `evs` is named "stdout", "stderr" or "error". -/
def Named (evs : List Event) : Prop :=
  ∀ e ∈ evs, e.name = "stdout" ∨ e.name = "stderr" ∨ e.name = "error"

/-- The tokens a scanner yields from the raw lines `lines` before `Scan` returns
false. -/
def scanned : List String → List String
  | [] => []
  | raw :: rest => if len raw < MaxScanTokenSize then dropCR raw :: scanned rest else []

/-- The tokens the scanner of a pipe has yet to yield. -/
def Pipe.tokens (pipe : Pipe) : List String :=
  scanned pipe.lines

/-- The tokens the scanner of a channel yields over the whole run: those of what can be
read of the text of the channel once the process is started, none when it was never
started. -/
def yields (text : String) (readErr : Option Nat) : Proc → List String
  | .running => scanned (rawLines (readable text readErr))
  | .ended => scanned (rawLines (readable text readErr))
  | .exited => scanned (rawLines (readable text readErr))
  | _ => []

/-- The account of a reader: the lines it has sent, the one it is sending and the
ones its scanner has yet to yield make up `lines`, in order. -/
def ReaderOk (name : String) (lines : List String) (r : Reader) (pipe : Pipe)
    (sent : List Event) : Prop :=
  match r with
  | .scan => dataOf name sent ++ pipe.tokens = lines
  | .send line => dataOf name sent ++ line :: pipe.tokens = lines
  | .loopDone => dataOf name sent = lines
  | .done => dataOf name sent = lines
  | _ => False

/-- What a reader goroutine adds to the WaitGroup counter: one from its `wg.Add(1)` to
its `wg.Done()`. -/
def Reader.count : Reader → Nat
  | .scan => 1
  | .send _ => 1
  | .loopDone => 1
  | _ => 0

/-- The response body holds the frames of the events the handler has received, but
for the one it is about to write. -/
def Written (h : Handler) (sent : List Event) (body : String) : Prop :=
  match h with
  | .ssevent e => ∃ pre, sent = pre ++ [e] ∧ body = frames pre
  | _ => body = frames sent

/-- The handler is in `c.Stream`, or it has left it, which it does only once the
channel is closed. -/
def HandlerOk (h : Handler) (closed : Bool) : Prop :=
  match h with
  | .stream => True
  | .receive => True
  | .ssevent _ => True
  | .unlock false => closed = true
  | .returned false => closed = true
  | _ => False

/-- What holds at each place of the waiter goroutine. -/
def WaiterOk (env : Env) (w : Waiter) (proc : Proc) (sent : List Event) (so se : Reader)
    (closed crashed : Bool) : Prop :=
  match w with
  | .unspawned => False
  | .start =>
    proc = .notStarted ∧ sent = [] ∧ so = .scan ∧ se = .scan ∧
      closed = false ∧ crashed = false
  | .sendStartErr data =>
    proc = .startFailed ∧ env.startErr = some data ∧ sent = [] ∧
      closed = false ∧ crashed = false
  | .panicStart =>
    proc = .startFailed ∧ (∃ d, env.startErr = some d ∧ sent = [⟨"error", d⟩]) ∧
      closed = false ∧ crashed = false
  | .panicked =>
    proc = .startFailed ∧ (∃ d, env.startErr = some d ∧ sent = [⟨"error", d⟩]) ∧
      closed = false ∧ crashed = true
  | .wgWait =>
    (proc = .running ∨ proc = .ended) ∧ env.startErr = none ∧ NoError sent ∧
      closed = false ∧ crashed = false
  | .cmdWait =>
    (proc = .running ∨ proc = .ended) ∧ env.startErr = none ∧ NoError sent ∧
      so = .done ∧ se = .done ∧ closed = false ∧ crashed = false
  | .sendExit data =>
    proc = .exited ∧ env.startErr = none ∧ NoError sent ∧ data = errorData env.waitErr ∧
      so = .done ∧ se = .done ∧ closed = false ∧ crashed = false
  | .close =>
    proc = .exited ∧ env.startErr = none ∧ Terminal (errorData env.waitErr) sent ∧
      so = .done ∧ se = .done ∧ closed = false ∧ crashed = false
  | .done =>
    proc = .exited ∧ env.startErr = none ∧ Terminal (errorData env.waitErr) sent ∧
      so = .done ∧ se = .done ∧ closed = true ∧ crashed = false

/-- What holds once the three goroutines are spawned and the handler is in
`c.Stream` or past it. -/
def Streaming (env : Env) (s : Run) : Prop :=
  env.stdoutPipeErr = none ∧ env.stderrPipeErr = none ∧
  WaiterOk env s.waiter s.proc s.sent s.stdout s.stderr s.closed s.crashed ∧
  ReaderOk "stdout" (yields env.stdout env.stdoutReadErr s.proc) s.stdout s.stdoutPipe
    s.sent ∧
  ReaderOk "stderr" (yields env.stderr env.stderrReadErr s.proc) s.stderr s.stderrPipe
    s.sent ∧
  s.wg = s.stdout.count + s.stderr.count ∧
  Named s.sent ∧
  Written s.handler s.sent s.body ∧
  HandlerOk s.handler s.closed

/-- Nothing has happened but the spawning of the readers `so` and `se`, which added
`wg` to the counter. -/
def Spawning (s : Run) (so se : Reader) (wg : Nat) : Prop :=
  s.stdout = so ∧ s.stderr = se ∧ s.waiter = .unspawned ∧ s.proc = .notStarted ∧
  s.wg = wg ∧ s.closed = false ∧ s.crashed = false ∧
  s.stdoutPipe = Pipe.empty ∧ s.stderrPipe = Pipe.empty ∧ s.sent = [] ∧ s.body = ""

/-- What holds while the handler has not spawned the waiter, or has left `v1Sync`
by the panic of a failed pipe. -/
def Early (env : Env) (s : Run) : Prop :=
  match s.handler with
  | .stdoutPipe => Spawning s .unspawned .unspawned 0
  | .stderrPipe => env.stdoutPipeErr = none ∧ Spawning s .unspawned .unspawned 0
  | .goStdout =>
    env.stdoutPipeErr = none ∧ env.stderrPipeErr = none ∧ Spawning s .unspawned .unspawned 0
  | .goStderr =>
    env.stdoutPipeErr = none ∧ env.stderrPipeErr = none ∧ Spawning s .scan .unspawned 1
  | .goWaiter =>
    env.stdoutPipeErr = none ∧ env.stderrPipeErr = none ∧ Spawning s .scan .scan 2
  | .unlock true =>
    (env.stdoutPipeErr ≠ none ∨ env.stderrPipeErr ≠ none) ∧ Spawning s .unspawned .unspawned 0
  | .returned true =>
    (env.stdoutPipeErr ≠ none ∨ env.stderrPipeErr ≠ none) ∧ Spawning s .unspawned .unspawned 0
  | _ => False

/-- The invariant of a run. -/
def Inv (env : Env) (s : Run) : Prop :=
  Early env s ∨ Streaming env s

/-- Every line of the text fits the buffer of a scanner together with its line feed:
it has less than `MaxScanTokenSize` bytes. -/
def fitsAll (text : String) : Prop :=
  ∀ raw ∈ rawLines text, len raw < MaxScanTokenSize

instance decFitsAll (text : String) : Decidable (fitsAll text) :=
  inferInstanceAs (Decidable (∀ raw ∈ rawLines text, len raw < MaxScanTokenSize))

/-- Neither scanner of the run stops before the end of its channel: no read fails and
every line fits the buffer. -/
def Env.readsAll (env : Env) : Prop :=
  env.stdoutReadErr = none ∧ env.stderrReadErr = none ∧ fitsAll env.stdout ∧
    fitsAll env.stderr

/-- What is read of standard output in the run. -/
def Env.stdoutRead (env : Env) : String :=
  readable env.stdout env.stdoutReadErr

/-- What is read of standard error in the run. -/
def Env.stderrRead (env : Env) : String :=
  readable env.stderr env.stderrReadErr

/-- The scanner of the pipe stops before the end of its channel: a read fails, or the
next line does not fit the buffer. -/
def Pipe.stopsEarly (pipe : Pipe) : Bool :=
  pipe.fails ||
    match pipe.lines with
    | [] => false
    | raw :: _ => decide (MaxScanTokenSize ≤ len raw)

/-- What holds of a pipe and its reader: no read fails unless the environment says so,
and there is nothing beyond a read that does not fail; the lines in the pipe are lines
of what can be read of the text of the channel; the pipe of a process not started is
empty; and a reader that has left its loop has stopped early, or has read all the lines
of a process that has ended. -/
def PipeOk (text : String) (readErr : Option Nat) (r : Reader) (pipe : Pipe)
    (proc : Proc) : Prop :=
  (readErr = none → pipe.fails = false) ∧
  (pipe.fails = false → pipe.beyond = 0) ∧
  (∀ raw ∈ pipe.lines, raw ∈ rawLines (readable text readErr)) ∧
  (proc = .notStarted ∨ proc = .startFailed → pipe = Pipe.empty) ∧
  (r = .loopDone ∨ r = .done →
    pipe.stopsEarly = true ∨ (pipe.lines = [] ∧ proc ≠ .running))

/-- The invariant of the two pipes of a run. -/
def Pipes (env : Env) (s : Run) : Prop :=
  PipeOk env.stdout env.stdoutReadErr s.stdout s.stdoutPipe s.proc ∧
  PipeOk env.stderr env.stderrReadErr s.stderr s.stderrPipe s.proc

/-! ## Environments and runs used as examples -/

/-- The subprocess of the run starts: both pipes are obtained and `cmd.Start`
succeeds. -/
def Env.starts (env : Env) : Prop :=
  env.stdoutPipeErr = none ∧ env.stderrPipeErr = none ∧ env.startErr = none

/-- What `cmd.Wait` returns for a process that exits with status `code`: no error for
status zero, else an `*exec.ExitError`, whose description reads `exit status <code>`
(the error example in the comment of `v1Sync`, main.go 90-91, shows
`data:exit status 1`). -/
def exitStatus (code : Nat) : Option String :=
  if code = 0 then none else some ("exit status " ++ toString code)

/-- The run of the success example (main.go 61-75, spec §8): two lines on standard
output, exit status 0. -/
def listing : Env :=
  { stdoutPipeErr := none, stderrPipeErr := none, startErr := none,
    stdout := "total 64K\ndrwxrwxr-x ...\n", stderr := "",
    stdoutReadErr := none, stderrReadErr := none, pipeSize := 65536,
    waitErr := exitStatus 0 }

/-- A run without output, exit status 0 (spec §8). -/
def silent : Env :=
  { stdoutPipeErr := none, stderrPipeErr := none, startErr := none,
    stdout := "", stderr := "", stdoutReadErr := none, stderrReadErr := none,
    pipeSize := 65536, waitErr := exitStatus 0 }

/-- The run of the error example (main.go 77-92, spec §8): a line on each channel,
exit status 1. -/
def failing : Env :=
  { stdoutPipeErr := none, stderrPipeErr := none, startErr := none,
    stdout := "hi there\n", stderr := "error\n",
    stdoutReadErr := none, stderrReadErr := none, pipeSize := 65536,
    waitErr := exitStatus 1 }

/-- A run whose `cmd.StdoutPipe()` fails. -/
def pipeFailure : Env :=
  { stdoutPipeErr := some "pipe: too many open files", stderrPipeErr := none,
    startErr := none, stdout := "", stderr := "", stdoutReadErr := none,
    stderrReadErr := none, pipeSize := 65536, waitErr := none }

/-- A run whose `cmd.Start()` fails. -/
def startFailure : Env :=
  { stdoutPipeErr := none, stderrPipeErr := none,
    startErr := some "fork/exec /usr/bin/rsync: no such file or directory",
    stdout := "", stderr := "", stdoutReadErr := none, stderrReadErr := none,
    pipeSize := 65536, waitErr := none }

/-- A line of `n` bytes, each the letter x. -/
def longLine (n : Nat) : String :=
  String.mk (List.replicate n 'x')

/-- The run of the success example with a read of standard output that fails after 14
bytes, in the middle of the second line. -/
def readFailure : Env :=
  { stdoutPipeErr := none, stderrPipeErr := none, startErr := none,
    stdout := "total 64K\ndrwxrwxr-x ...\n", stderr := "",
    stdoutReadErr := some 14, stderrReadErr := none, pipeSize := 65536,
    waitErr := exitStatus 0 }

/-- A run whose subprocess writes a line of `n` bytes and the line "after" to standard
output, and exits with status 0; the pipe holds 65536 bytes. -/
def overlong (n : Nat) : Env :=
  { stdoutPipeErr := none, stderrPipeErr := none, startErr := none,
    stdout := longLine n ++ "\n" ++ "after\n", stderr := "",
    stdoutReadErr := none, stderrReadErr := none, pipeSize := 65536,
    waitErr := exitStatus 0 }

/-- A run whose subprocess has two lines of `n` bytes each to write to standard output,
`2 * n + 2` bytes with their line feeds, through a pipe that holds 65536 bytes. -/
def flood (n : Nat) : Env :=
  { stdoutPipeErr := none, stderrPipeErr := none, startErr := none,
    stdout := longLine n ++ "\n" ++ longLine n ++ "\n", stderr := "",
    stdoutReadErr := none, stderrReadErr := none, pipeSize := 65536,
    waitErr := exitStatus 0 }

/-- The handler up to `c.Stream` and the start of the process: the first six steps
of a run whose pipes are obtained. -/
def startup : List Task :=
  [.handler, .handler, .handler, .handler, .handler, .waiter]

/-- The steps that bring one line of standard output into the response. -/
def stdoutLine : List Task :=
  [.stdoutReader, .handler, .stdoutReader, .handler]

/-- The steps that bring one line of standard error into the response. -/
def stderrLine : List Task :=
  [.stderrReader, .handler, .stderrReader, .handler]

/-- The steps from the return of both readers to the return of `v1Sync`: the waiter
passes `wg.Wait()` and `cmd.Wait()`, hands the terminal event to the handler and closes
the channel, and the handler writes the event, finds the channel closed and returns. -/
def finish : List Task :=
  [.waiter, .waiter, .handler, .waiter, .waiter, .handler, .handler, .handler, .handler]

/-- The steps from the end of the process to the return of `v1Sync`: the process
ends, each reader finds its scan at an end and returns, and the waiter and the handler
do the rest. -/
def shutdown : List Task :=
  [.subprocess, .stdoutReader, .stdoutReader, .stderrReader, .stderrReader] ++ finish

/-- A whole run in the environment `listing`. -/
def listingRun : List Task :=
  startup ++ stdoutLine ++ stdoutLine ++ shutdown

/-- A whole run in the environment `silent`. -/
def silentRun : List Task :=
  startup ++ shutdown

/-- A whole run in the environment `failing`. -/
def failingRun : List Task :=
  startup ++ stdoutLine ++ stderrLine ++ shutdown

/-- A whole run in the environment `readFailure`: the first line and what was read of
the second are streamed, and the scan of standard output ends at the read that
fails. -/
def readFailureRun : List Task :=
  startup ++ stdoutLine ++ stdoutLine ++ shutdown

/-- A whole run in an environment `overlong n` with a first line that does not fit the
buffer: the scan of standard output ends at the first line, the process writes the rest
of its output into the pipe and ends, and the scan of standard error finds the end of
its pipe. -/
def overlongRun : List Task :=
  startup ++ [.stdoutReader, .stdoutReader, .subprocess, .stderrReader, .stderrReader] ++
    finish

/-- A run in an environment `flood n` with lines that do not fit the buffer: the handler
waits for an event, and the scan of standard output ends at the first line. -/
def floodRun : List Task :=
  startup ++ [.handler, .stdoutReader, .stdoutReader]

/-- A whole run in the environment `pipeFailure`: the handler panics and runs the
deferred unlock. -/
def pipeFailureRun : List Task :=
  [.handler, .handler]

/-- A run in the environment `startFailure`, up to the hand-over of the event the
waiter sends before it panics. -/
def startFailureSend : List Task :=
  startup ++ [.handler, .waiter]

/-- A whole run in the environment `startFailure`: the waiter panics. -/
def startFailureRun : List Task :=
  startFailureSend ++ [.waiter]

/-- The waiter goroutine is past `wg.Wait()`. -/
def Waiter.pastWgWait : Waiter → Bool
  | .cmdWait => true
  | .sendExit _ => true
  | .close => true
  | .done => true
  | _ => false

/-! ## The end of a run -/

/-- No task of the run can take a step: the run has ended, or it is stuck. -/
def Run.halted (env : Env) (s : Run) : Bool :=
  [Task.handler, Task.stdoutReader, Task.stderrReader, Task.waiter, Task.subprocess].all
    fun t => (s.step env t).isNone

/-- The number of events named "error" in `evs`. -/
def errorCount (evs : List Event) : Nat :=
  (evs.filter (fun e => e.name = "error")).length

/-- The events a reader sends for the lines of its channel. -/
def lineEvents (name : String) (lines : List String) : List Event :=
  lines.map (fun line => ⟨name, line⟩)

/-- The number of steps a reader goroutine still has before it, with `n` lines left
to read. -/
def Reader.rank (n : Nat) : Reader → Nat
  | .unspawned => 2 * n + 2
  | .scan => 2 * n + 2
  | .send _ => 2 * n + 3
  | .loopDone => 1
  | .done => 0
  | .panicked => 0

/-- The number of steps the waiter goroutine still has before it, at most. -/
def Waiter.rank : Waiter → Nat
  | .unspawned => 5
  | .start => 5
  | .wgWait => 4
  | .cmdWait => 3
  | .sendStartErr _ => 2
  | .sendExit _ => 2
  | .panicStart => 1
  | .close => 1
  | .done => 0
  | .panicked => 0

/-- The number of steps the handler still has before it, not counting those it
takes for an event it has yet to receive. -/
def Handler.rank : Handler → Nat
  | .stdoutPipe => 9
  | .stderrPipe => 8
  | .goStdout => 7
  | .goStderr => 6
  | .goWaiter => 5
  | .ssevent _ => 4
  | .stream => 3
  | .receive => 2
  | .unlock _ => 1
  | .returned _ => 0

/-- The number of steps the subprocess still has before it: the one in which it
ends. -/
def Proc.rank : Proc → Nat
  | .notStarted => 1
  | .running => 1
  | _ => 0

/-- The lines a reader has yet to read, at most: those of what can be read of the text
of the channel before the process is started, those in its pipe afterwards. -/
def linesLeft (text : String) (pipe : Pipe) : Proc → Nat
  | .notStarted => (rawLines text).length
  | _ => pipe.lines.length

/-- A bound on the number of steps left to a run: every step of a sender is
followed by at most two of the handler. -/
def Run.fuel (env : Env) (s : Run) : Nat :=
  3 * (s.stdout.rank (linesLeft env.stdoutRead s.stdoutPipe s.proc) +
       s.stderr.rank (linesLeft env.stderrRead s.stderrPipe s.proc) + s.waiter.rank) +
    s.handler.rank + s.proc.rank

/-! ## The server: several requests and `rsyncMutex` -/

/-- The server: `rsyncMutex`, and for every request to `/v1/sync` its run once it
holds the mutex (`none` while it waits in `rsyncMutex.Lock()`).  `crashed` tells
whether a goroutine outside a handler has panicked, which ends the process. -/
structure Server where
  rsyncMutex : Bool
  requests : Nat → Option Run
  crashed : Bool

/-- The server with every request waiting for the mutex. -/
def Server.init : Server :=
  { rsyncMutex := false, requests := fun _ => none, crashed := false }

/-- What happens in the server: request `i` gets the mutex (94); a task of request
`i` takes a step; `c.Stream` of request `i` returns because its client has gone away.
The last is the other way in which `c.Stream` of the gin library returns: before each
call of the step function it looks whether the connection of the client has been
closed (the `CloseNotify` channel of the response writer), and returns if it has. -/
inductive Action where
  | lock (i : Nat)
  | task (i : Nat) (t : Task)
  | clientGone (i : Nat)
deriving DecidableEq, Repr

/-- Whether an action is the departure of a client. -/
def Action.isClientGone : Action → Bool
  | .clientGone _ => true
  | _ => false

/-- Whether the step of task `t` in state `r` is the deferred
`rsyncMutex.Unlock()` (95). -/
def Run.unlocks (t : Task) (r : Run) : Bool :=
  match t, r.handler with
  | .handler, .unlock _ => true
  | _, _ => false

/-- One step of the server; `envs i` is the environment of request `i`. -/
def Server.step (envs : Nat → Env) (a : Action) (sv : Server) : Option Server :=
  if sv.crashed then none
  else
    match a with
    | .lock i =>
      match sv.requests i with
      | some _ => none
      | none =>
        if sv.rsyncMutex then none
        else some { sv with rsyncMutex := true,
                            requests := Function.update sv.requests i (some Run.init) }
    | .task i t =>
      match sv.requests i with
      | none => none
      | some r =>
        match r.step (envs i) t with
        | none => none
        | some r' =>
          some { rsyncMutex := if r.unlocks t then false else sv.rsyncMutex,
                 requests := Function.update sv.requests i (some r'),
                 crashed := r'.crashed }
    | .clientGone i =>
      match sv.requests i with
      | none => none
      | some r =>
        if r.handler = .stream then
          some { sv with requests :=
            Function.update sv.requests i (some { r with handler := .unlock false }) }
        else none

/-- Runs a sequence of actions from server state `sv`. -/
def Server.exec (envs : Nat → Env) (sv : Server) : List Action → Option Server
  | [] => some sv
  | a :: as =>
    match sv.step envs a with
    | none => none
    | some sv' => Server.exec envs sv' as

/-- The subprocess of request `i` is active: started and still running. -/
def Server.active (sv : Server) (i : Nat) : Bool :=
  match sv.requests i with
  | some r => decide (r.proc = .running)
  | none => false

/-- The handler of the run is inside `v1Sync`: it holds the mutex it took at the
start and has not yet released it. -/
def Run.inside (r : Run) : Bool :=
  match r.handler with
  | .returned _ => false
  | _ => true

/-- Request `i` is inside `v1Sync`. -/
def Server.inside (sv : Server) (i : Nat) : Bool :=
  match sv.requests i with
  | some r => r.inside
  | none => false

/-- The run of a request is over: the handler has left `v1Sync` and released the
mutex, either after the channel was closed behind the terminal event, with the
process awaited and the three goroutines ended, or by the panic of a failed pipe
with no goroutine spawned and no process started. -/
def Run.over (r : Run) : Prop :=
  (r.handler = .returned false ∧ r.closed = true ∧ r.proc = .exited ∧ r.waiter = .done ∧
    r.stdout = .done ∧ r.stderr = .done ∧ ∃ d, Terminal d r.sent) ∨
  (r.handler = .returned true ∧ r.proc = .notStarted ∧ r.waiter = .unspawned ∧
    r.stdout = .unspawned ∧ r.stderr = .unspawned ∧ r.sent = [])

/-- Two requests in an environment like that of the success example; the client of
request 0 goes away after the first event. Request 0 takes the mutex, starts its rsync
and streams the first line; its `c.Stream` then finds the client gone and returns, and
`v1Sync` releases the mutex; request 1 takes the mutex and starts its rsync. -/
def clientLeaves : List Action :=
  [.lock 0] ++ startup.map (Action.task 0) ++ stdoutLine.map (Action.task 0) ++
    [.clientGone 0, .task 0 .handler, .lock 1] ++ startup.map (Action.task 1)

/-- Two requests one after the other, both clients staying: request 0 runs to the
end and releases the mutex, request 1 takes it and starts its rsync. -/
def clientsStay : List Action :=
  [.lock 0] ++ silentRun.map (Action.task 0) ++ [.lock 1] ++ startup.map (Action.task 1)

/-- What holds of the server as long as no client goes away: every run keeps its
invariant, at most one request is inside `v1Sync`, and none is while the mutex is
free. -/
def ServerOk (envs : Nat → Env) (sv : Server) : Prop :=
  (∀ i r, sv.requests i = some r → Inv (envs i) r) ∧
  (∀ i j, sv.inside i = true → sv.inside j = true → i = j) ∧
  (sv.rsyncMutex = false → ∀ i, sv.inside i = false)

/-! ## main: the fallback listener -/

/-- The function `os.Getenv`: the value of the variable, empty when it is not set. -/
def getenv (value : Option String) : String :=
  match value with
  | some v => v
  | none => ""

/-- The servers `main` starts on the listeners of the socket activation
(192-197): one per listener. -/
def servers {L : Type} (listeners : List L) : List L :=
  listeners.foldl (fun servers listener => servers ++ [listener]) []

/-- The address `main` passes to `router.Run` (199-212), if it does: `PORT` and `HOST`
are the two environment variables, `none` when unset. -/
def fallback {L : Type} (listeners : List L) (PORT HOST : Option String) : Option String :=
  if (servers listeners).length ≤ 0 then
    let port := getenv PORT
    let port := if len port ≤ 0 then "8080" else port
    let host := getenv HOST
    let host := if len host ≤ 0 then "localhost" else host
    some (host ++ ":" ++ port)
  else none

/-- The fallback listener of `main` (187-212): `activation` is what
`activation.Listeners(true)` returns, the listeners or an error, on which `main`
panics. -/
def main {L : Type} (activation : Except String (List L)) (PORT HOST : Option String) :
    Except String (Option String) :=
  match activation with
  | .error err => .error err
  | .ok listeners => .ok (fallback listeners PORT HOST)

/-! ## Lists of events -/

theorem dataOf_nil (name : String) : dataOf name [] = [] := rfl

theorem dataOf_snoc (name : String) (evs : List Event) (e : Event) :
    dataOf name (evs ++ [e]) =
      if e.name = name then dataOf name evs ++ [e.data] else dataOf name evs := by
  unfold dataOf
  by_cases h : e.name = name <;> simp [List.filter_append, h]

theorem frames_snoc (evs : List Event) (e : Event) :
    frames (evs ++ [e]) = frames evs ++ e.frame := by
  induction evs with
  | nil => simp [frames]
  | cons a as ih => simp [frames, ih, String.append_assoc]

theorem noError_nil : NoError [] := by
  intro e he; simp at he

theorem noError_snoc (evs : List Event) (e : Event) :
    NoError (evs ++ [e]) ↔ NoError evs ∧ e.name ≠ "error" := by
  unfold NoError
  constructor
  · intro h
    exact ⟨fun x hx => h x (by simp [hx]), h e (by simp)⟩
  · rintro ⟨h1, h2⟩ x hx
    rcases List.mem_append.mp hx with hx | hx
    · exact h1 x hx
    · simp at hx; subst hx; exact h2

theorem named_nil : Named [] := by
  intro e he; simp at he

theorem named_snoc (evs : List Event) (e : Event) :
    Named (evs ++ [e]) ↔
      Named evs ∧ (e.name = "stdout" ∨ e.name = "stderr" ∨ e.name = "error") := by
  unfold Named
  constructor
  · intro h
    exact ⟨fun x hx => h x (by simp [hx]), h e (by simp)⟩
  · rintro ⟨h1, h2⟩ x hx
    rcases List.mem_append.mp hx with hx | hx
    · exact h1 x hx
    · simp at hx; subst hx; exact h2

theorem readerOk_snoc_other {name : String} {lines : List String} {r : Reader}
    {pipe : Pipe} {sent : List Event} (e : Event) (hne : e.name ≠ name)
    (h : ReaderOk name lines r pipe sent) : ReaderOk name lines r pipe (sent ++ [e]) := by
  cases r <;> simp only [ReaderOk, dataOf_snoc, if_neg hne] at h ⊢ <;> exact h

theorem readerOk_done {name : String} {lines : List String} {r : Reader}
    {pipe : Pipe} {sent : List Event} (h : ReaderOk name lines r pipe sent)
    (hc : r.count = 0) : r = .done := by
  cases r <;> simp [ReaderOk, Reader.count] at h hc ⊢

theorem handlerOk_closed {h : Handler} {closed : Bool} (hl : HandlerOk h closed) :
    HandlerOk h true := by
  rcases h with _ | _ | _ | _ | _ | _ | _ | e | (_ | _) | (_ | _) <;>
    simp [HandlerOk] at hl ⊢

theorem written_receive {sent : List Event} {body : String} (e : Event)
    (h : Written .receive sent body) : Written (.ssevent e) (sent ++ [e]) body := by
  simp only [Written] at h ⊢
  exact ⟨sent, rfl, h⟩

theorem send_cases (s : Run) (e : Event) :
    (s.closed = true ∧ s.send e = some none) ∨
    (s.closed = false ∧ s.handler = .receive ∧
      s.send e = some (some { s with sent := s.sent ++ [e], handler := .ssevent e })) ∨
    (s.closed = false ∧ s.handler ≠ .receive ∧ s.send e = none) := by
  unfold Run.send
  by_cases hc : s.closed = true
  · left; simp [hc]
  · right
    have hc' : s.closed = false := by simpa using hc
    by_cases hh : s.handler = .receive
    · left; simp [hc', hh]
    · right; simp [hc', hh]

theorem send_some_none {s : Run} {e : Event} (h : s.send e = some none) :
    s.closed = true := by
  rcases send_cases s e with ⟨hc, _⟩ | ⟨_, _, hs⟩ | ⟨_, _, hs⟩
  · exact hc
  · rw [hs] at h; simp at h
  · rw [hs] at h; simp at h

theorem send_some_some {s s' : Run} {e : Event} (h : s.send e = some (some s')) :
    s.closed = false ∧ s.handler = .receive ∧
      s' = { s with sent := s.sent ++ [e], handler := .ssevent e } := by
  rcases send_cases s e with ⟨_, hs⟩ | ⟨hc, hh, hs⟩ | ⟨_, _, hs⟩
  · rw [hs] at h; simp at h
  · rw [hs] at h
    simp only [Option.some.injEq] at h
    exact ⟨hc, hh, h.symm⟩
  · rw [hs] at h; simp at h

/-! ## The scanner -/

theorem scan_cases (closed : Bool) (pipe : Pipe) :
    (pipe.lines = [] ∧ (pipe.fails || closed) = true ∧
      Scan closed pipe = some (none, pipe)) ∨
    (pipe.lines = [] ∧ pipe.fails = false ∧ closed = false ∧ Scan closed pipe = none) ∨
    (∃ raw rest, pipe.lines = raw :: rest ∧ len raw < MaxScanTokenSize ∧
      Scan closed pipe = some (some (dropCR raw), { pipe with lines := rest, held := 0 })) ∨
    (∃ raw rest, pipe.lines = raw :: rest ∧ ¬ len raw < MaxScanTokenSize ∧
      Scan closed pipe = some (none, { pipe with held := MaxScanTokenSize })) := by
  unfold Scan
  cases hl : pipe.lines with
  | nil =>
    by_cases hc : (pipe.fails || closed) = true
    · left; exact ⟨rfl, hc, by simp only [hc, if_true]⟩
    · right; left
      have hc' : (pipe.fails || closed) = false := by simpa using hc
      rw [Bool.or_eq_false_iff] at hc'
      exact ⟨rfl, hc'.1, hc'.2, by simp [hc'.1, hc'.2]⟩
  | cons raw rest =>
    right; right
    by_cases hlen : len raw < MaxScanTokenSize
    · left; exact ⟨raw, rest, rfl, hlen, by simp [hlen]⟩
    · right; exact ⟨raw, rest, rfl, hlen, by simp [hlen]⟩

theorem scan_true {closed : Bool} {pipe pipe' : Pipe} {text : String}
    (h : Scan closed pipe = some (some text, pipe')) :
    pipe.tokens = text :: pipe'.tokens ∧ (∃ raw, pipe.lines = raw :: pipe'.lines) ∧
      pipe'.fails = pipe.fails ∧ pipe'.beyond = pipe.beyond := by
  rcases scan_cases closed pipe with ⟨_, _, hs⟩ | ⟨_, _, _, hs⟩ |
    ⟨raw, rest, hl, hlen, hs⟩ | ⟨raw, rest, _, _, hs⟩ <;> rw [hs] at h <;>
    simp only [Option.some.injEq, Prod.mk.injEq, reduceCtorEq, false_and] at h
  obtain ⟨h1, h2⟩ := h
  subst h1 h2
  refine ⟨?_, ⟨raw, hl⟩, rfl, rfl⟩
  simp [Pipe.tokens, hl, scanned, hlen]

theorem scan_false {closed : Bool} {pipe pipe' : Pipe}
    (h : Scan closed pipe = some (none, pipe')) :
    pipe.tokens = [] ∧ pipe'.lines = pipe.lines ∧ pipe'.fails = pipe.fails ∧
      pipe'.beyond = pipe.beyond ∧
      (pipe'.stopsEarly = true ∨ (pipe'.lines = [] ∧ closed = true)) := by
  rcases scan_cases closed pipe with ⟨hl, hc, hs⟩ | ⟨_, _, _, hs⟩ |
    ⟨raw, rest, _, _, hs⟩ | ⟨raw, rest, hl, hlen, hs⟩ <;> rw [hs] at h <;>
    simp only [Option.some.injEq, Prod.mk.injEq, reduceCtorEq, false_and, true_and] at h
  · subst h
    refine ⟨by simp [Pipe.tokens, hl, scanned], rfl, rfl, rfl, ?_⟩
    rw [Bool.or_eq_true] at hc
    rcases hc with hc | hc
    · exact Or.inl (by simp [Pipe.stopsEarly, hc])
    · exact Or.inr ⟨hl, hc⟩
  · subst h
    refine ⟨?_, rfl, rfl, rfl, Or.inl ?_⟩
    · simp [Pipe.tokens, hl, scanned, hlen]
    · simp only [Pipe.stopsEarly, hl, Bool.or_eq_true, decide_eq_true_eq]
      right; omega

theorem readerStep_scan {name : String} {pipe pipe' : Pipe} {s s1 : Run} {r : Reader}
    (h : s.readerStep name .scan pipe = some (r, pipe', s1)) :
    s.proc ≠ .notStarted ∧ s1 = s ∧
      ((∃ text, r = .send text ∧ Scan s.proc.pipesClosed pipe = some (some text, pipe')) ∨
       (r = .loopDone ∧ Scan s.proc.pipesClosed pipe = some (none, pipe'))) := by
  simp only [Run.readerStep] at h
  have hp : s.proc ≠ .notStarted := by
    intro hp; rw [hp] at h; simp at h
  refine ⟨hp, ?_⟩
  have h' : (match Scan s.proc.pipesClosed pipe with
      | none => none
      | some (none, pipe') => some (Reader.loopDone, pipe', s)
      | some (some text, pipe') => some (Reader.send text, pipe', s)) = some (r, pipe', s1) := by
    cases hpr : s.proc <;> rw [hpr] at h hp <;> first
      | exact absurd rfl hp
      | exact h
  cases hsc : Scan s.proc.pipesClosed pipe with
  | none => rw [hsc] at h'; simp at h'
  | some res =>
    obtain ⟨tok, p1⟩ := res
    rw [hsc] at h'
    cases tok with
    | none =>
      simp only [Option.some.injEq, Prod.mk.injEq] at h'
      obtain ⟨h1, h2, h3⟩ := h'
      subst h1 h2 h3
      exact ⟨rfl, Or.inr ⟨rfl, rfl⟩⟩
    | some text =>
      simp only [Option.some.injEq, Prod.mk.injEq] at h'
      obtain ⟨h1, h2, h3⟩ := h'
      subst h1 h2 h3
      exact ⟨rfl, Or.inl ⟨text, rfl, rfl⟩⟩

/-! ## The invariant holds along every run -/

theorem inv_init (env : Env) : Inv env Run.init := by
  left
  simp [Early, Run.init, Spawning]

theorem early_facts {env : Env} {s : Run} (he : Early env s) :
    s.waiter = .unspawned ∧ s.proc = .notStarted ∧ s.sent = [] ∧ s.body = "" ∧
      s.closed = false ∧ s.crashed = false ∧
      (s.stdout = .unspawned ∨ s.stdout = .scan) ∧
      (s.stderr = .unspawned ∨ s.stderr = .scan) := by
  unfold Early at he
  split at he <;> simp only [Spawning] at he <;> simp_all

theorem streaming_waiter {env : Env} {s : Run} (hs : Streaming env s) :
    s.waiter ≠ .unspawned := by
  intro h
  have := hs.2.2.1
  rw [h] at this
  exact this

theorem inv_handlerStep (env : Env) (s s' : Run) (hinv : Inv env s)
    (h : s.handlerStep env = some s') : Inv env s' := by
  obtain ⟨hd, so, se, w, p, wg, cl, cr, po, pe, sent, body⟩ := s
  rcases hinv with he | ⟨hp1, hp2, hw, ho, he, hwg, hn, hwr, hl⟩
  · rcases hd with _ | _ | _ | _ | _ | _ | _ | e | (_ | _) | (_ | _) <;>
      simp only [Early, Spawning] at he <;> simp only [Run.handlerStep, Stream] at h
    · split at h <;> simp at h <;> subst h <;> left <;> simp_all [Early, Spawning]
    · split at h <;> simp at h <;> subst h <;> left <;> simp_all [Early, Spawning]
    · simp at h; subst h; left; simp_all [Early, Spawning]
    · simp at h; subst h; left; simp_all [Early, Spawning]
    · simp at h; subst h; right
      obtain ⟨h1, h2, h3, h4, h5, h6, h7, h8, h9, h10, h11, h12, h13⟩ := he
      subst_vars
      simp [Streaming, h1, h2, WaiterOk, ReaderOk, yields, dataOf_nil, Reader.count,
        named_nil, Written, HandlerOk, frames, Pipe.tokens, Pipe.empty, scanned]
    · simp at h; subst h; left; simp_all [Early, Spawning]
    · simp at h
  · simp only at hw ho he hwg hn hwr hl
    rcases hd with _ | _ | _ | _ | _ | _ | _ | e | (_ | _) | (_ | _) <;>
      simp only [HandlerOk] at hl <;> simp only [Run.handlerStep, Stream] at h
    · simp at h; subst h; right
      exact ⟨hp1, hp2, hw, ho, he, hwg, hn, hwr, trivial⟩
    · simp at h; obtain ⟨hcl, h⟩ := h; subst h; right
      exact ⟨hp1, hp2, hw, ho, he, hwg, hn, hwr, hcl⟩
    · simp at h; subst h; right
      obtain ⟨pre, hs, hb⟩ := hwr
      refine ⟨hp1, hp2, hw, ho, he, hwg, hn, ?_, trivial⟩
      simp only [Written]
      rw [hs, hb, frames_snoc]
    · simp at h; subst h; right
      exact ⟨hp1, hp2, hw, ho, he, hwg, hn, hwr, hl⟩
    · simp at h

theorem inv_waiterStep (env : Env) (s s' : Run) (hinv : Inv env s)
    (h : s.waiterStep env = some s') : Inv env s' := by
  rcases hinv with he | hs
  · have hw := (early_facts he).1
    simp [Run.waiterStep, hw] at h
  right
  obtain ⟨hd, so, se, w, p, wg, cl, cr, po, pe, sent, body⟩ := s
  obtain ⟨hp1, hp2, hw, ho, he, hwg, hn, hwr, hl⟩ := hs
  simp only at hw ho he hwg hn hwr hl
  cases w <;> simp only [WaiterOk] at hw <;> simp only [Run.waiterStep] at h
  case start =>
    obtain ⟨h1, h2, h3, h4, h5, h6⟩ := hw
    subst h1 h2 h3 h4 h5 h6
    simp only [ReaderOk, yields, dataOf_nil, List.nil_append] at ho he
    split at h <;> simp at h <;> subst h
    · rename_i d hd'
      refine ⟨hp1, hp2, ?_, ?_, ?_, hwg, hn, hwr, hl⟩
      · simp [WaiterOk, errorData, hd']
      · simpa [ReaderOk, yields, dataOf_nil] using ho
      · simpa [ReaderOk, yields, dataOf_nil] using he
    · rename_i hd'
      refine ⟨hp1, hp2, ?_, ?_, ?_, hwg, hn, hwr, hl⟩
      · simp [WaiterOk, hd', noError_nil]
      · simp [ReaderOk, yields, dataOf_nil, Pipe.tokens, Pipe.start]
      · simp [ReaderOk, yields, dataOf_nil, Pipe.tokens, Pipe.start]
  case sendStartErr d =>
    obtain ⟨h1, h2, h3, h5, h6⟩ := hw
    subst h1 h3 h5 h6
    split at h
    · simp at h
    · rename_i hsend
      simpa using send_some_none hsend
    · rename_i r hsend
      obtain ⟨-, hrecv, hr⟩ := send_some_some hsend
      simp only at hrecv hr
      simp only [Option.some.injEq] at h
      subst h hr hrecv
      refine ⟨hp1, hp2, ?_, ?_, ?_, hwg, ?_, ?_, trivial⟩
      · simp [WaiterOk, h2]
      · exact readerOk_snoc_other _ (by simp) ho
      · exact readerOk_snoc_other _ (by simp) he
      · exact (named_snoc _ _).2 ⟨hn, by simp⟩
      · exact written_receive _ hwr
  case panicStart =>
    obtain ⟨h1, h2, h5, h6⟩ := hw
    simp only [Option.some.injEq] at h
    subst h
    refine ⟨hp1, hp2, ?_, ho, he, hwg, hn, hwr, hl⟩
    exact ⟨h1, h2, h5, rfl⟩
  case wgWait =>
    obtain ⟨h1, h2, h3, h5, h6⟩ := hw
    split at h
    · rename_i hz
      simp only [Option.some.injEq] at h
      subst h
      have hso : so = .done := readerOk_done ho (by omega)
      have hse : se = .done := readerOk_done he (by omega)
      refine ⟨hp1, hp2, ?_, ho, he, hwg, hn, hwr, hl⟩
      exact ⟨h1, h2, h3, hso, hse, h5, h6⟩
    · simp at h
  case cmdWait =>
    obtain ⟨h1, h2, h3, hso, hse, h5, h6⟩ := hw
    cases p <;> simp only [Option.some.injEq, reduceCtorEq] at h
    subst h
    refine ⟨hp1, hp2, ?_, ho, he, hwg, hn, hwr, hl⟩
    exact ⟨rfl, h2, h3, rfl, hso, hse, h5, h6⟩
  case sendExit d =>
    obtain ⟨h1, h2, h3, hd', hso, hse, h5, h6⟩ := hw
    split at h
    · simp at h
    · rename_i hsend
      have := send_some_none hsend
      simp only at this
      rw [h5] at this
      exact absurd this (by simp)
    · rename_i r hsend
      obtain ⟨-, hrecv, hr⟩ := send_some_some hsend
      simp only at hrecv hr
      simp only [Option.some.injEq] at h
      subst h hr hrecv
      refine ⟨hp1, hp2, ?_, ?_, ?_, hwg, ?_, ?_, trivial⟩
      · exact ⟨h1, h2, ⟨sent, by rw [hd'], h3⟩, hso, hse, h5, h6⟩
      · exact readerOk_snoc_other _ (by simp) ho
      · exact readerOk_snoc_other _ (by simp) he
      · exact (named_snoc _ _).2 ⟨hn, by simp⟩
      · exact written_receive _ hwr
  case close =>
    obtain ⟨h1, h2, h3, hso, hse, h5, h6⟩ := hw
    simp only [Option.some.injEq] at h
    subst h
    refine ⟨hp1, hp2, ?_, ho, he, hwg, hn, hwr, handlerOk_closed hl⟩
    exact ⟨h1, h2, h3, hso, hse, rfl, h6⟩
  case done => simp at h
  case panicked => simp at h

theorem waiterOk_stdout {env : Env} {w : Waiter} {p : Proc} {sent : List Event}
    {so se : Reader} {cl cr : Bool} (h : WaiterOk env w p sent so se cl cr)
    (hso : so ≠ .done) (hp : p ≠ .notStarted) (so' : Reader) :
    WaiterOk env w p sent so' se cl cr ∧ cl = false := by
  cases w <;> simp only [WaiterOk] at h ⊢ <;> simp_all

theorem waiterOk_stderr {env : Env} {w : Waiter} {p : Proc} {sent : List Event}
    {so se : Reader} {cl cr : Bool} (h : WaiterOk env w p sent so se cl cr)
    (hse : se ≠ .done) (hp : p ≠ .notStarted) (se' : Reader) :
    WaiterOk env w p sent so se' cl cr ∧ cl = false := by
  cases w <;> simp only [WaiterOk] at h ⊢ <;> simp_all

theorem waiterOk_snoc_stdout {env : Env} {w : Waiter} {p : Proc} {sent : List Event}
    {so se : Reader} {cl cr : Bool} (h : WaiterOk env w p sent so se cl cr)
    (hso : so ≠ .done) (hp : p ≠ .notStarted ∧ p ≠ .startFailed)
    (e : Event) (he : e.name ≠ "error") (so' : Reader) :
    WaiterOk env w p (sent ++ [e]) so' se cl cr := by
  cases w <;> simp only [WaiterOk] at h ⊢ <;> simp_all [noError_snoc]

theorem waiterOk_snoc_stderr {env : Env} {w : Waiter} {p : Proc} {sent : List Event}
    {so se : Reader} {cl cr : Bool} (h : WaiterOk env w p sent so se cl cr)
    (hse : se ≠ .done) (hp : p ≠ .notStarted ∧ p ≠ .startFailed)
    (e : Event) (he : e.name ≠ "error") (se' : Reader) :
    WaiterOk env w p (sent ++ [e]) so se' cl cr := by
  cases w <;> simp only [WaiterOk] at h ⊢ <;> simp_all [noError_snoc]

theorem readerOk_send_started {name text : String} {readErr : Option Nat} {p : Proc}
    {line : String} {pipe : Pipe} {sent : List Event}
    (h : ReaderOk name (yields text readErr p) (.send line) pipe sent) :
    p ≠ .notStarted ∧ p ≠ .startFailed := by
  cases p <;> simp [ReaderOk, yields] at h ⊢

theorem readerStep_send {name line : String} {pipe pipe' : Pipe} {s s1 : Run}
    {r : Reader} (h : s.readerStep name (.send line) pipe = some (r, pipe', s1)) :
    s.closed = true ∨
    (s.closed = false ∧ s.handler = .receive ∧ r = .scan ∧ pipe' = pipe ∧
      s1 = { s with sent := s.sent ++ [⟨name, line⟩], handler := .ssevent ⟨name, line⟩ }) := by
  simp only [Run.readerStep] at h
  rcases send_cases s ⟨name, line⟩ with ⟨hc, hs⟩ | ⟨hc, hh, hs⟩ | ⟨hc, hh, hs⟩
  · exact Or.inl hc
  · rw [hs] at h
    simp only [Option.some.injEq, Prod.mk.injEq] at h
    obtain ⟨h1, h2, h3⟩ := h
    exact Or.inr ⟨hc, hh, h1.symm, h2.symm, h3.symm⟩
  · rw [hs] at h; simp at h

theorem inv_stdoutStep (env : Env) (s s' : Run) (hinv : Inv env s)
    (h : (match s.readerStep "stdout" s.stdout s.stdoutPipe with
          | none => none
          | some (r, pipe, s1) => some { s1 with stdout := r, stdoutPipe := pipe }) = some s') :
    Inv env s' := by
  rcases hinv with he | hs
  · obtain ⟨-, hp, -, -, -, -, hso, -⟩ := early_facts he
    rcases hso with hso | hso <;> simp [Run.readerStep, hso, hp] at h
  right
  obtain ⟨hd, so, se, w, p, wg, cl, cr, po, pe, sent, body⟩ := s
  obtain ⟨hp1, hp2, hw, ho, he, hwg, hn, hwr, hl⟩ := hs
  simp only at hw ho he hwg hn hwr hl h
  cases so
  case unspawned => simp [Run.readerStep] at h
  case done => simp [Run.readerStep] at h
  case panicked => simp [Run.readerStep] at h
  case scan =>
    split at h
    · simp at h
    · rename_i r pipe s1 hstep
      obtain ⟨hp, hs1, hr⟩ := readerStep_scan hstep
      simp only at hp hr
      simp only [Option.some.injEq] at h
      subst h hs1
      have hw' := fun r => (waiterOk_stdout hw (by simp) hp r).1
      simp only [ReaderOk] at ho
      rcases hr with ⟨text, hr, hsc⟩ | ⟨hr, hsc⟩
      · subst hr
        refine ⟨hp1, hp2, hw' _, ?_, he, hwg, hn, hwr, hl⟩
        simp only [ReaderOk]
        rw [← (scan_true hsc).1]
        exact ho
      · subst hr
        refine ⟨hp1, hp2, hw' _, ?_, he, hwg, hn, hwr, hl⟩
        simp only [ReaderOk]
        rw [(scan_false hsc).1] at ho
        simpa using ho
  case send line =>
    have hp := readerOk_send_started ho
    have hcl := (waiterOk_stdout hw (by simp) hp.1 .scan).2
    subst hcl
    split at h
    · simp at h
    · rename_i r pipe s1 hsend
      rcases readerStep_send hsend with hc | ⟨-, hrecv, h1, h2, h3⟩
      · simp at hc
      · simp only at hrecv h3
        simp only [Option.some.injEq] at h
        subst h h1 h2 h3 hrecv
        refine ⟨hp1, hp2, waiterOk_snoc_stdout hw (by simp) hp _ (by simp) _, ?_,
          readerOk_snoc_other _ (by simp) he, hwg, (named_snoc _ _).2 ⟨hn, by simp⟩,
          written_receive _ hwr, trivial⟩
        simp only [ReaderOk, dataOf_snoc, if_true] at ho ⊢
        simpa using ho
  case loopDone =>
    simp only [Run.readerStep, Option.some.injEq] at h
    subst h
    have hp : p ≠ .notStarted := by
      intro hp; subst hp
      cases w <;> simp [WaiterOk] at hw
    refine ⟨hp1, hp2, (waiterOk_stdout hw (by simp) hp _).1, ?_, he, ?_, hn, hwr, hl⟩
    · simpa [ReaderOk] using ho
    · simp only [Reader.count] at hwg ⊢
      omega

theorem inv_stderrStep (env : Env) (s s' : Run) (hinv : Inv env s)
    (h : (match s.readerStep "stderr" s.stderr s.stderrPipe with
          | none => none
          | some (r, pipe, s1) => some { s1 with stderr := r, stderrPipe := pipe }) = some s') :
    Inv env s' := by
  rcases hinv with he | hs
  · obtain ⟨-, hp, -, -, -, -, -, hso⟩ := early_facts he
    rcases hso with hso | hso <;> simp [Run.readerStep, hso, hp] at h
  right
  obtain ⟨hd, so, se, w, p, wg, cl, cr, po, pe, sent, body⟩ := s
  obtain ⟨hp1, hp2, hw, ho, he, hwg, hn, hwr, hl⟩ := hs
  simp only at hw ho he hwg hn hwr hl h
  cases se
  case unspawned => simp [Run.readerStep] at h
  case done => simp [Run.readerStep] at h
  case panicked => simp [Run.readerStep] at h
  case scan =>
    split at h
    · simp at h
    · rename_i r pipe s1 hstep
      obtain ⟨hp, hs1, hr⟩ := readerStep_scan hstep
      simp only at hp hr
      simp only [Option.some.injEq] at h
      subst h hs1
      have hw' := fun r => (waiterOk_stderr hw (by simp) hp r).1
      simp only [ReaderOk] at he
      rcases hr with ⟨text, hr, hsc⟩ | ⟨hr, hsc⟩
      · subst hr
        refine ⟨hp1, hp2, hw' _, ho, ?_, hwg, hn, hwr, hl⟩
        simp only [ReaderOk]
        rw [← (scan_true hsc).1]
        exact he
      · subst hr
        refine ⟨hp1, hp2, hw' _, ho, ?_, hwg, hn, hwr, hl⟩
        simp only [ReaderOk]
        rw [(scan_false hsc).1] at he
        simpa using he
  case send line =>
    have hp := readerOk_send_started he
    have hcl := (waiterOk_stderr hw (by simp) hp.1 .scan).2
    subst hcl
    split at h
    · simp at h
    · rename_i r pipe s1 hsend
      rcases readerStep_send hsend with hc | ⟨-, hrecv, h1, h2, h3⟩
      · simp at hc
      · simp only at hrecv h3
        simp only [Option.some.injEq] at h
        subst h h1 h2 h3 hrecv
        refine ⟨hp1, hp2, waiterOk_snoc_stderr hw (by simp) hp _ (by simp) _,
          readerOk_snoc_other _ (by simp) ho, ?_, hwg, (named_snoc _ _).2 ⟨hn, by simp⟩,
          written_receive _ hwr, trivial⟩
        simp only [ReaderOk, dataOf_snoc, if_true] at he ⊢
        simpa using he
  case loopDone =>
    simp only [Run.readerStep, Option.some.injEq] at h
    subst h
    have hp : p ≠ .notStarted := by
      intro hp; subst hp
      cases w <;> simp [WaiterOk] at hw
    refine ⟨hp1, hp2, (waiterOk_stderr hw (by simp) hp _).1, ho, ?_, ?_, hn, hwr, hl⟩
    · simpa [ReaderOk] using he
    · simp only [Reader.count] at hwg ⊢
      omega

theorem processStep_eq {env : Env} {s s' : Run} (h : s.processStep env = some s') :
    s.proc = .running ∧ s.stdoutPipe.unread ≤ env.pipeSize ∧
      s.stderrPipe.unread ≤ env.pipeSize ∧ s' = { s with proc := .ended } := by
  unfold Run.processStep at h
  cases hp : s.proc <;> rw [hp] at h <;> simp only [reduceCtorEq] at h
  split at h
  · rename_i hfit
    simp only [Option.some.injEq] at h
    exact ⟨rfl, hfit.1, hfit.2, h.symm⟩
  · simp at h

theorem inv_processStep (env : Env) (s s' : Run) (hinv : Inv env s)
    (h : s.processStep env = some s') : Inv env s' := by
  obtain ⟨hp, -, -, hs'⟩ := processStep_eq h
  subst hs'
  rcases hinv with he | ⟨hp1, hp2, hw, ho, he, hwg, hn, hwr, hl⟩
  · rw [(early_facts he).2.1] at hp; simp at hp
  · right
    obtain ⟨hd, so, se, w, p, wg, cl, cr, po, pe, sent, body⟩ := s
    simp only at hw ho he hwg hn hwr hl hp
    subst hp
    refine ⟨hp1, hp2, ?_, ho, he, hwg, hn, hwr, hl⟩
    cases w <;> simp only [WaiterOk] at hw ⊢ <;> simp_all

theorem inv_step (env : Env) (t : Task) (s s' : Run) (hinv : Inv env s)
    (h : s.step env t = some s') : Inv env s' := by
  unfold Run.step at h
  split at h
  · simp at h
  · cases t
    · exact inv_handlerStep env s s' hinv h
    · exact inv_stdoutStep env s s' hinv h
    · exact inv_stderrStep env s s' hinv h
    · exact inv_waiterStep env s s' hinv h
    · exact inv_processStep env s s' hinv h

theorem inv_exec (env : Env) (sched : List Task) (s s' : Run) (hinv : Inv env s)
    (h : Run.exec env s sched = some s') : Inv env s' := by
  induction sched generalizing s with
  | nil =>
    simp only [Run.exec, Option.some.injEq] at h
    exact h ▸ hinv
  | cons t ts ih =>
    simp only [Run.exec] at h
    split at h
    · simp at h
    · rename_i s1 hs1
      exact ih s1 (inv_step env t s s1 hinv hs1) h

theorem inv_reachable {env : Env} {s : Run} (h : Reachable env s) : Inv env s := by
  obtain ⟨sched, hs⟩ := h
  exact inv_exec env sched _ s (inv_init env) hs

/-! ## The invariant of the pipes -/

theorem pipes_init (env : Env) : Pipes env Run.init := by
  constructor <;> simp [PipeOk, Run.init, Pipe.empty]

theorem pipeOk_reader {text : String} {readErr : Option Nat} {r r' : Reader} {pipe : Pipe}
    {proc : Proc} (h : PipeOk text readErr r pipe proc)
    (hr : r' = .loopDone ∨ r' = .done → r = .loopDone ∨ r = .done) :
    PipeOk text readErr r' pipe proc :=
  ⟨h.1, h.2.1, h.2.2.1, h.2.2.2.1, fun h' => h.2.2.2.2 (hr h')⟩

theorem pipeOk_ended {text : String} {readErr : Option Nat} {r : Reader} {pipe : Pipe}
    {proc proc' : Proc} (h : PipeOk text readErr r pipe proc)
    (h1 : proc' ≠ .notStarted) (h2 : proc' ≠ .startFailed) (h3 : proc' ≠ .running) :
    PipeOk text readErr r pipe proc' := by
  refine ⟨h.1, h.2.1, h.2.2.1, ?_, ?_⟩
  · rintro (hp | hp)
    · exact absurd hp h1
    · exact absurd hp h2
  · intro hr
    rcases h.2.2.2.2 hr with he | ⟨hl, -⟩
    · exact Or.inl he
    · exact Or.inr ⟨hl, h3⟩

theorem handlerStep_pipes (env : Env) (s s' : Run) (h : s.handlerStep env = some s') :
    s'.stdoutPipe = s.stdoutPipe ∧ s'.stderrPipe = s.stderrPipe ∧ s'.proc = s.proc ∧
      (s'.stdout = s.stdout ∨ s'.stdout = .scan) ∧
      (s'.stderr = s.stderr ∨ s'.stderr = .scan) := by
  obtain ⟨hd, so, se, w, p, wg, cl, cr, po, pe, sent, body⟩ := s
  cases hd <;> simp only [Run.handlerStep, Stream] at h
  case stdoutPipe => split at h <;> simp only [Option.some.injEq] at h <;> subst h <;> simp
  case stderrPipe => split at h <;> simp only [Option.some.injEq] at h <;> subst h <;> simp
  case receive =>
    split at h
    · simp only [Option.some.injEq] at h; subst h
      simp
    · simp at h
  case returned b => simp at h
  all_goals
    simp only [Option.some.injEq] at h
    subst h
    simp

theorem pipes_handlerStep (env : Env) (s s' : Run) (hp : Pipes env s)
    (h : s.handlerStep env = some s') : Pipes env s' := by
  obtain ⟨h1, h2, h3, h4, h5⟩ := handlerStep_pipes env s s' h
  unfold Pipes
  rw [h1, h2, h3]
  refine ⟨pipeOk_reader hp.1 ?_, pipeOk_reader hp.2 ?_⟩
  · intro hr
    rcases h4 with h4 | h4
    · rw [← h4]; exact hr
    · rw [h4] at hr; simp at hr
  · intro hr
    rcases h5 with h5 | h5
    · rw [← h5]; exact hr
    · rw [h5] at hr; simp at hr

theorem waiterStep_pipes (env : Env) (s s' : Run) (h : s.waiterStep env = some s') :
    s'.stdout = s.stdout ∧ s'.stderr = s.stderr ∧
      ((s'.proc = s.proc ∧ s'.stdoutPipe = s.stdoutPipe ∧ s'.stderrPipe = s.stderrPipe) ∨
       (s.waiter = .start ∧ s'.proc = .startFailed ∧ s'.stdoutPipe = s.stdoutPipe ∧
         s'.stderrPipe = s.stderrPipe) ∨
       (s.waiter = .start ∧ s'.proc = .running ∧
         s'.stdoutPipe = Pipe.start env.stdout env.stdoutReadErr ∧
         s'.stderrPipe = Pipe.start env.stderr env.stderrReadErr) ∨
       (s.proc = .ended ∧ s'.proc = .exited ∧ s'.stdoutPipe = s.stdoutPipe ∧
         s'.stderrPipe = s.stderrPipe)) := by
  obtain ⟨hd, so, se, w, p, wg, cl, cr, po, pe, sent, body⟩ := s
  cases w <;> simp only [Run.waiterStep] at h
  case unspawned => simp at h
  case done => simp at h
  case panicked => simp at h
  case start => split at h <;> simp only [Option.some.injEq] at h <;> subst h <;> simp
  case wgWait =>
    split at h
    · simp only [Option.some.injEq] at h; subst h; simp
    · simp at h
  case cmdWait =>
    cases p <;> simp only [Option.some.injEq, reduceCtorEq] at h
    subst h; simp
  case sendStartErr d =>
    split at h
    · simp at h
    · simp only [Option.some.injEq] at h; subst h; simp
    · rename_i r hsend
      obtain ⟨-, hrecv, hr⟩ := send_some_some hsend
      simp only at hrecv hr
      simp only [Option.some.injEq] at h
      subst h hr hrecv
      simp
  case sendExit d =>
    split at h
    · simp at h
    · simp only [Option.some.injEq] at h; subst h; simp
    · rename_i r hsend
      obtain ⟨-, hrecv, hr⟩ := send_some_some hsend
      simp only at hrecv hr
      simp only [Option.some.injEq] at h
      subst h hr hrecv
      simp
  all_goals
    simp only [Option.some.injEq] at h
    subst h
    simp

theorem start_facts {env : Env} {s : Run} (hinv : Inv env s) (hw : s.waiter = .start) :
    s.proc = .notStarted ∧ s.stdout = .scan ∧ s.stderr = .scan := by
  rcases hinv with he | ⟨-, -, hw', -⟩
  · rw [(early_facts he).1] at hw; simp at hw
  · rw [hw] at hw'
    exact ⟨hw'.1, hw'.2.2.1, hw'.2.2.2.1⟩

theorem pipeOk_start (text : String) (readErr : Option Nat) :
    PipeOk text readErr .scan (Pipe.start text readErr) .running := by
  refine ⟨?_, ?_, fun _ hr => hr, by simp, by simp⟩
  · intro hn; subst hn; rfl
  · intro hf
    cases readErr with
    | none => simp [Pipe.start, readable]
    | some k => simp [Pipe.start] at hf

theorem pipes_waiterStep (env : Env) (s s' : Run) (hinv : Inv env s) (hp : Pipes env s)
    (h : s.waiterStep env = some s') : Pipes env s' := by
  obtain ⟨h1, h2, h3⟩ := waiterStep_pipes env s s' h
  unfold Pipes
  rw [h1, h2]
  rcases h3 with ⟨h3, h4, h5⟩ | ⟨hw, h3, h4, h5⟩ | ⟨hw, h3, h4, h5⟩ | ⟨hpe, h3, h4, h5⟩
  · rw [h3, h4, h5]; exact hp
  · obtain ⟨hpr, hso, hse⟩ := start_facts hinv hw
    rw [h3, h4, h5, hso, hse]
    obtain ⟨⟨a1, a2, a3, a4, -⟩, ⟨b1, b2, b3, b4, -⟩⟩ := hp
    rw [hpr] at a4 b4
    exact ⟨⟨a1, a2, a3, fun _ => a4 (Or.inl rfl), by simp⟩,
      ⟨b1, b2, b3, fun _ => b4 (Or.inl rfl), by simp⟩⟩
  · obtain ⟨hpr, hso, hse⟩ := start_facts hinv hw
    rw [h3, h4, h5, hso, hse]
    exact ⟨pipeOk_start _ _, pipeOk_start _ _⟩
  · rw [h3, h4, h5]
    exact ⟨pipeOk_ended hp.1 (by simp) (by simp) (by simp),
      pipeOk_ended hp.2 (by simp) (by simp) (by simp)⟩

theorem pipes_processStep (env : Env) (s s' : Run) (hp : Pipes env s)
    (h : s.processStep env = some s') : Pipes env s' := by
  obtain ⟨-, -, -, hs'⟩ := processStep_eq h
  subst hs'
  exact ⟨pipeOk_ended hp.1 (by simp) (by simp) (by simp),
    pipeOk_ended hp.2 (by simp) (by simp) (by simp)⟩

theorem readerStep_pipes (name : String) (r r' : Reader) (pipe pipe' : Pipe) (s s1 : Run)
    (h : s.readerStep name r pipe = some (r', pipe', s1)) :
    s1.stdout = s.stdout ∧ s1.stderr = s.stderr ∧ s1.waiter = s.waiter ∧
      s1.proc = s.proc ∧ s1.stdoutPipe = s.stdoutPipe ∧ s1.stderrPipe = s.stderrPipe ∧
      s1.wg ≤ s.wg := by
  cases r
  case unspawned => simp [Run.readerStep] at h
  case done => simp [Run.readerStep] at h
  case panicked => simp [Run.readerStep] at h
  case scan =>
    obtain ⟨-, h1, -⟩ := readerStep_scan h
    subst h1
    simp
  case send line =>
    rcases readerStep_send h with hc | ⟨-, hrecv, h1, h2, h3⟩
    · simp only [Run.readerStep] at h
      have hs : s.send ⟨name, line⟩ = some none := by
        rcases send_cases s ⟨name, line⟩ with ⟨_, hs⟩ | ⟨hc', _, _⟩ | ⟨hc', _, _⟩
        · exact hs
        · rw [hc] at hc'; simp at hc'
        · rw [hc] at hc'; simp at hc'
      rw [hs] at h
      simp only [Option.some.injEq, Prod.mk.injEq] at h
      obtain ⟨h1, h2, h3⟩ := h
      subst h3
      simp
    · subst h3
      simp
  case loopDone =>
    simp only [Run.readerStep, Option.some.injEq, Prod.mk.injEq] at h
    obtain ⟨h1, h2, h3⟩ := h
    subst h3
    simp

theorem pipeOk_readerStep {text : String} {readErr : Option Nat} {name : String}
    {r r' : Reader} {pipe pipe' : Pipe} {s s1 : Run}
    (hp : PipeOk text readErr r pipe s.proc)
    (h : s.readerStep name r pipe = some (r', pipe', s1)) :
    PipeOk text readErr r' pipe' s.proc := by
  cases r
  case unspawned => simp [Run.readerStep] at h
  case done => simp [Run.readerStep] at h
  case panicked => simp [Run.readerStep] at h
  case scan =>
    obtain ⟨hns, -, hr⟩ := readerStep_scan h
    obtain ⟨a1, a2, a3, a4, -⟩ := hp
    rcases hr with ⟨text', hr, hsc⟩ | ⟨hr, hsc⟩
    · obtain ⟨-, ⟨raw, hl⟩, hf, hb⟩ := scan_true hsc
      subst hr
      refine ⟨?_, ?_, ?_, ?_, by simp⟩
      · intro hn
        rw [hf, a1 hn]
      · intro hn
        rw [hf] at hn
        rw [hb, a2 hn]
      · intro x hx
        exact a3 x (by rw [hl]; simp [hx])
      · intro hpr
        have := a4 hpr
        rw [this] at hl
        simp [Pipe.empty] at hl
    · obtain ⟨-, hl, hf, hb, hstop⟩ := scan_false hsc
      subst hr
      refine ⟨?_, ?_, ?_, ?_, ?_⟩
      · intro hn
        rw [hf, a1 hn]
      · intro hn
        rw [hf] at hn
        rw [hb, a2 hn]
      · rw [hl]; exact a3
      · intro hpr
        have hpe := a4 hpr
        rw [hpe] at hsc
        cases hcl : s.proc.pipesClosed <;> rw [hcl] at hsc <;>
          simp [Scan, Pipe.empty] at hsc
        rw [← hsc]; rfl
      · intro _
        rcases hstop with hstop | ⟨hl', hcl⟩
        · exact Or.inl hstop
        · refine Or.inr ⟨hl', ?_⟩
          intro hrun
          rw [hrun] at hcl
          simp [Proc.pipesClosed] at hcl
  case send line =>
    rcases readerStep_send h with hc | ⟨-, hrecv, h1, h2, h3⟩
    · simp only [Run.readerStep] at h
      have hs : s.send ⟨name, line⟩ = some none := by
        rcases send_cases s ⟨name, line⟩ with ⟨_, hs⟩ | ⟨hc', _, _⟩ | ⟨hc', _, _⟩
        · exact hs
        · rw [hc] at hc'; simp at hc'
        · rw [hc] at hc'; simp at hc'
      rw [hs] at h
      simp only [Option.some.injEq, Prod.mk.injEq] at h
      obtain ⟨h1, h2, h3⟩ := h
      subst h1 h2
      exact ⟨hp.1, hp.2.1, hp.2.2.1, hp.2.2.2.1, by simp⟩
    · subst h1 h2
      exact ⟨hp.1, hp.2.1, hp.2.2.1, hp.2.2.2.1, by simp⟩
  case loopDone =>
    simp only [Run.readerStep, Option.some.injEq, Prod.mk.injEq] at h
    obtain ⟨h1, h2, h3⟩ := h
    subst h1 h2
    exact ⟨hp.1, hp.2.1, hp.2.2.1, hp.2.2.2.1, fun _ => hp.2.2.2.2 (Or.inl rfl)⟩

theorem pipes_step (env : Env) (t : Task) (s s' : Run) (hinv : Inv env s)
    (hp : Pipes env s) (h : s.step env t = some s') : Pipes env s' := by
  unfold Run.step at h
  split at h
  · simp at h
  · cases t
    · exact pipes_handlerStep env s s' hp h
    · simp only at h
      split at h
      · simp at h
      · rename_i r pipe s1 hr
        obtain ⟨h1, h2, h3, h4, h5, h6, -⟩ := readerStep_pipes _ _ _ _ _ _ _ hr
        simp only [Option.some.injEq] at h
        subst h
        have := pipeOk_readerStep hp.1 hr
        unfold Pipes
        simp only [h2, h4, h6]
        exact ⟨this, hp.2⟩
    · simp only at h
      split at h
      · simp at h
      · rename_i r pipe s1 hr
        obtain ⟨h1, h2, h3, h4, h5, h6, -⟩ := readerStep_pipes _ _ _ _ _ _ _ hr
        simp only [Option.some.injEq] at h
        subst h
        have := pipeOk_readerStep hp.2 hr
        unfold Pipes
        simp only [h1, h4, h5]
        exact ⟨hp.1, this⟩
    · exact pipes_waiterStep env s s' hinv hp h
    · exact pipes_processStep env s s' hp h

theorem pipes_exec (env : Env) (sched : List Task) (s s' : Run) (hinv : Inv env s)
    (hp : Pipes env s) (h : Run.exec env s sched = some s') : Pipes env s' := by
  induction sched generalizing s with
  | nil =>
    simp only [Run.exec, Option.some.injEq] at h
    exact h ▸ hp
  | cons t ts ih =>
    simp only [Run.exec] at h
    split at h
    · simp at h
    · rename_i s1 hs1
      exact ih s1 (inv_step env t s s1 hinv hs1) (pipes_step env t s s1 hinv hp hs1) h

theorem pipes_reachable {env : Env} {s : Run} (h : Reachable env s) : Pipes env s := by
  obtain ⟨sched, hs⟩ := h
  exact pipes_exec env sched _ s (inv_init env) (pipes_init env) hs

/-! ## Progress -/

theorem reader_can_step (name : String) (r : Reader) (pipe : Pipe) (s : Run)
    (hr : r.count = 1) (hp : s.proc ≠ .notStarted) (hrecv : s.handler = .receive) :
    (s.readerStep name r pipe).isSome = true ∨
      (r = .scan ∧ pipe.lines = [] ∧ pipe.fails = false ∧ s.proc.pipesClosed = false) := by
  cases r <;> simp [Reader.count] at hr
  · rcases scan_cases s.proc.pipesClosed pipe with ⟨_, _, hs⟩ | ⟨hl, hf, hc, _⟩ |
      ⟨raw, rest, _, _, hs⟩ | ⟨raw, rest, _, _, hs⟩
    · left
      cases hproc : s.proc <;> rw [hproc] at hs hp <;> simp [Run.readerStep, hproc, hs] at hp ⊢
    · right; exact ⟨rfl, hl, hf, hc⟩
    · left
      cases hproc : s.proc <;> rw [hproc] at hs hp <;> simp [Run.readerStep, hproc, hs] at hp ⊢
    · left
      cases hproc : s.proc <;> rw [hproc] at hs hp <;> simp [Run.readerStep, hproc, hs] at hp ⊢
  · left
    rcases send_cases s ⟨name, ‹String›⟩ with ⟨_, hs⟩ | ⟨_, _, hs⟩ | ⟨_, hh, _⟩
    · simp [Run.readerStep, hs]
    · simp [Run.readerStep, hs]
    · exact absurd hrecv hh
  · left; simp [Run.readerStep]

theorem step_stdout_isSome {env : Env} {s : Run} (hc : s.crashed = false)
    (h : (s.readerStep "stdout" s.stdout s.stdoutPipe).isSome = true) :
    (s.step env .stdoutReader).isSome = true := by
  simp only [Run.step, hc]
  cases hr : s.readerStep "stdout" s.stdout s.stdoutPipe
  · rw [hr] at h; simp at h
  · simp

theorem step_stderr_isSome {env : Env} {s : Run} (hc : s.crashed = false)
    (h : (s.readerStep "stderr" s.stderr s.stderrPipe).isSome = true) :
    (s.step env .stderrReader).isSome = true := by
  simp only [Run.step, hc]
  cases hr : s.readerStep "stderr" s.stderr s.stderrPipe
  · rw [hr] at h; simp at h
  · simp

theorem unread_nil {pipe : Pipe} (h : pipe.lines = []) (hb : pipe.beyond = 0) :
    pipe.unread = 0 := by
  simp [Pipe.unread, h, hb]

theorem step_process_isSome {env : Env} {s : Run} (hc : s.crashed = false)
    (hp : s.proc = .running) (ho : s.stdoutPipe.unread = 0) (he : s.stderrPipe.unread = 0) :
    (s.step env .subprocess).isSome = true := by
  simp [Run.step, hc, Run.processStep, hp, ho, he]

theorem done_ended {text : String} {readErr : Option Nat} {pipe : Pipe} {proc : Proc}
    (h : PipeOk text readErr .done pipe proc) (hs : pipe.stopsEarly = false) :
    pipe.lines = [] ∧ proc ≠ .running := by
  rcases h.2.2.2.2 (Or.inr rfl) with he | he
  · rw [hs] at he; simp at he
  · exact he

theorem not_closed_running {p : Proc} (h : p = .running ∨ p = .ended)
    (hc : p.pipesClosed = false) : p = .running := by
  rcases h with h | h
  · exact h
  · rw [h] at hc; simp [Proc.pipesClosed] at hc

theorem progress (env : Env) (s : Run) (hinv : Inv env s) (hpipes : Pipes env s)
    (hc : s.crashed = false) (hh : ∀ p, s.handler ≠ .returned p)
    (hso : s.stdoutPipe.stopsEarly = false) (hse : s.stderrPipe.stopsEarly = false) :
    ∃ t, (s.step env t).isSome = true := by
  obtain ⟨hd, so, se, w, p, wg, cl, cr, po, pe, sent, body⟩ := s
  simp only at hc hh hso hse
  subst hc
  obtain ⟨hpo, hpe⟩ := hpipes
  simp only at hpo hpe
  rcases hinv with he | ⟨hp1, hp2, hw, ho, he, hwg, hn, hwr, hl⟩
  · refine ⟨.handler, ?_⟩
    rcases hd with _ | _ | _ | _ | _ | _ | _ | e | (_ | _) | (_ | _) <;>
      simp only [Early, Spawning] at he <;>
      simp [Run.step, Run.handlerStep, Stream] at hh ⊢
    · cases env.stdoutPipeErr <;> simp
    · cases env.stderrPipeErr <;> simp
  · simp only at hw ho he hwg hn hwr hl
    rcases hd with _ | _ | _ | _ | _ | _ | _ | e | (_ | _) | (_ | _) <;>
      simp only [HandlerOk] at hl <;> simp at hh
    · exact ⟨.handler, by simp [Run.step, Run.handlerStep, Stream]⟩
    · cases cl
      · cases w <;> simp only [WaiterOk] at hw
        · obtain ⟨h1, -⟩ := hw
          refine ⟨.waiter, ?_⟩
          cases hst : env.startErr <;> simp [Run.step, Run.waiterStep, hst]
        · exact ⟨.waiter, by simp [Run.step, Run.waiterStep, Run.send]⟩
        · exact ⟨.waiter, by simp [Run.step, Run.waiterStep]⟩
        · obtain ⟨h1, -⟩ := hw
          have hns : p ≠ .notStarted := by
            rcases h1 with h1 | h1 <;> rw [h1] <;> simp
          by_cases hz : wg = 0
          · exact ⟨.waiter, by simp [Run.step, Run.waiterStep, hz]⟩
          · have hbo : so.count ≤ 1 := by cases so <;> simp [Reader.count]
            have hbe : se.count ≤ 1 := by cases se <;> simp [Reader.count]
            by_cases hco : so.count = 1
            · rcases reader_can_step "stdout" so po
                ⟨.receive, so, se, .wgWait, p, wg, false, false, po, pe, sent, body⟩
                hco hns rfl with hstep | ⟨-, hlo, hfo, hnc⟩
              · exact ⟨.stdoutReader, step_stdout_isSome rfl hstep⟩
              · have hrun : p = .running := not_closed_running h1 hnc
                by_cases hce : se.count = 1
                · rcases reader_can_step "stderr" se pe
                    ⟨.receive, so, se, .wgWait, p, wg, false, false, po, pe, sent, body⟩
                    hce hns rfl with hstep | ⟨-, hle, hfe, -⟩
                  · exact ⟨.stderrReader, step_stderr_isSome rfl hstep⟩
                  · exact ⟨.subprocess, step_process_isSome rfl hrun
                      (unread_nil hlo (hpo.2.1 hfo)) (unread_nil hle (hpe.2.1 hfe))⟩
                · have hsd : se = .done := readerOk_done he (by omega)
                  subst hsd
                  exact absurd hrun (done_ended hpe hse).2
            · have hsd : so = .done := readerOk_done ho (by omega)
              subst hsd
              have hnr := (done_ended hpo hso).2
              have hce : se.count = 1 := by
                have h0 : Reader.count .done = 0 := rfl
                rw [h0] at hwg
                omega
              rcases reader_can_step "stderr" se pe
                ⟨.receive, .done, se, .wgWait, p, wg, false, false, po, pe, sent, body⟩
                hce hns rfl with hstep | ⟨-, -, -, hnc⟩
              · exact ⟨.stderrReader, step_stderr_isSome rfl hstep⟩
              · exact absurd (not_closed_running h1 hnc) hnr
        · obtain ⟨h1, -, -, h4, h5, -⟩ := hw
          subst h4 h5
          have hnr := (done_ended hpo hso).2
          have hpe' : p = .ended := by
            rcases h1 with h1 | h1
            · exact absurd h1 hnr
            · exact h1
          subst hpe'
          exact ⟨.waiter, by simp [Run.step, Run.waiterStep]⟩
        · exact ⟨.waiter, by simp [Run.step, Run.waiterStep, Run.send]⟩
        · exact ⟨.waiter, by simp [Run.step, Run.waiterStep]⟩
        · simp at hw
        · simp at hw
      · exact ⟨.handler, by simp [Run.step, Run.handlerStep, Stream]⟩
    · exact ⟨.handler, by simp [Run.step, Run.handlerStep, Stream]⟩
    · exact ⟨.handler, by simp [Run.step, Run.handlerStep, Stream]⟩

/-! ## Termination -/

theorem fuel_handlerStep (env : Env) (s s' : Run) (hinv : Inv env s)
    (h : s.handlerStep env = some s') : s'.fuel env < s.fuel env := by
  obtain ⟨hd, so, se, w, p, wg, cl, cr, po, pe, sent, body⟩ := s
  cases hd <;> simp only [Run.handlerStep, Stream] at h
  case stdoutPipe =>
    split at h <;> simp only [Option.some.injEq] at h <;> subst h <;>
      simp [Run.fuel, Handler.rank]
  case stderrPipe =>
    split at h <;> simp only [Option.some.injEq] at h <;> subst h <;>
      simp [Run.fuel, Handler.rank]
  case goStdout =>
    simp only [Option.some.injEq] at h; subst h
    rcases hinv with he | hs
    · simp only [Early, Spawning] at he
      obtain ⟨-, -, h1, -⟩ := he
      subst h1
      simp [Run.fuel, Handler.rank, Reader.rank]
    · exact absurd hs.2.2.2.2.2.2.2.2 (by simp [HandlerOk])
  case goStderr =>
    simp only [Option.some.injEq] at h; subst h
    rcases hinv with he | hs
    · simp only [Early, Spawning] at he
      obtain ⟨-, -, -, h1, -⟩ := he
      subst h1
      simp [Run.fuel, Handler.rank, Reader.rank]
    · exact absurd hs.2.2.2.2.2.2.2.2 (by simp [HandlerOk])
  case goWaiter =>
    simp only [Option.some.injEq] at h; subst h
    rcases hinv with he | hs
    · simp only [Early, Spawning] at he
      obtain ⟨-, -, -, -, h1, -⟩ := he
      subst h1
      simp [Run.fuel, Handler.rank, Waiter.rank]
    · exact absurd hs.2.2.2.2.2.2.2.2 (by simp [HandlerOk])
  case stream =>
    simp only [Option.some.injEq] at h; subst h
    simp [Run.fuel, Handler.rank]
  case receive =>
    split at h
    · simp only [Option.some.injEq] at h; subst h
      simp [Run.fuel, Handler.rank]
    · simp at h
  case ssevent e =>
    simp only [Option.some.injEq] at h; subst h
    simp [Run.fuel, Handler.rank]
  case unlock b =>
    simp only [Option.some.injEq] at h; subst h
    simp [Run.fuel, Handler.rank]
  case returned b => simp at h

theorem fuel_waiterStep (env : Env) (s s' : Run) (hinv : Inv env s) (hpipes : Pipes env s)
    (h : s.waiterStep env = some s') : s'.fuel env < s.fuel env := by
  rcases hinv with he | hs
  · have hw := (early_facts he).1
    simp [Run.waiterStep, hw] at h
  obtain ⟨hd, so, se, w, p, wg, cl, cr, po, pe, sent, body⟩ := s
  obtain ⟨hp1, hp2, hw, ho, he, hwg, hn, hwr, hl⟩ := hs
  obtain ⟨hpo, hpe⟩ := hpipes
  simp only at hw ho he hwg hn hwr hl hpo hpe
  cases w <;> simp only [WaiterOk] at hw <;> simp only [Run.waiterStep] at h
  case start =>
    obtain ⟨h1, h2, h3, h4, h5, h6⟩ := hw
    subst h1 h2 h3 h4 h5 h6
    have hpo' := hpo.2.2.2.1 (Or.inl rfl)
    have hpe' := hpe.2.2.2.1 (Or.inl rfl)
    subst hpo' hpe'
    split at h <;> simp only [Option.some.injEq] at h <;> subst h <;>
      simp only [Run.fuel, Waiter.rank, Reader.rank, linesLeft, Proc.rank, Pipe.empty,
        Pipe.start, Env.stdoutRead, Env.stderrRead, List.length_nil] <;> omega
  case sendStartErr d =>
    split at h
    · simp at h
    · simp only [Option.some.injEq] at h; subst h
      simp [Run.fuel, Waiter.rank]
    · rename_i r hsend
      obtain ⟨-, hrecv, hr⟩ := send_some_some hsend
      simp only at hrecv hr
      simp only [Option.some.injEq] at h
      subst h hr hrecv
      simp [Run.fuel, Waiter.rank, Handler.rank]
      omega
  case panicStart =>
    simp only [Option.some.injEq] at h; subst h
    simp [Run.fuel, Waiter.rank]
  case wgWait =>
    split at h
    · simp only [Option.some.injEq] at h; subst h
      simp [Run.fuel, Waiter.rank]
    · simp at h
  case cmdWait =>
    cases p <;> simp only [Option.some.injEq, reduceCtorEq] at h
    subst h
    simp [Run.fuel, Waiter.rank, linesLeft, Proc.rank]
  case sendExit d =>
    split at h
    · simp at h
    · simp only [Option.some.injEq] at h; subst h
      simp [Run.fuel, Waiter.rank]
    · rename_i r hsend
      obtain ⟨-, hrecv, hr⟩ := send_some_some hsend
      simp only at hrecv hr
      simp only [Option.some.injEq] at h
      subst h hr hrecv
      simp [Run.fuel, Waiter.rank, Handler.rank]
      omega
  case close =>
    simp only [Option.some.injEq] at h; subst h
    simp [Run.fuel, Waiter.rank]
  case done => simp at h
  case panicked => simp at h

theorem linesLeft_started {text : String} {pipe : Pipe} {p : Proc} (hp : p ≠ .notStarted) :
    linesLeft text pipe p = pipe.lines.length := by
  cases p <;> simp [linesLeft] at hp ⊢

theorem fuel_readerStep (name : String) (r r' : Reader) (pipe pipe' : Pipe)
    (s s1 : Run) (text : String)
    (h : s.readerStep name r pipe = some (r', pipe', s1)) :
    3 * r'.rank (linesLeft text pipe' s.proc) + s1.handler.rank <
      3 * r.rank (linesLeft text pipe s.proc) + s.handler.rank := by
  cases r
  case unspawned => simp [Run.readerStep] at h
  case done => simp [Run.readerStep] at h
  case panicked => simp [Run.readerStep] at h
  case scan =>
    obtain ⟨hp, h1, hr⟩ := readerStep_scan h
    subst h1
    rw [linesLeft_started hp, linesLeft_started hp]
    rcases hr with ⟨text', hr, hsc⟩ | ⟨hr, hsc⟩
    · obtain ⟨-, ⟨raw, hl⟩, -⟩ := scan_true hsc
      subst hr
      rw [hl]
      simp only [Reader.rank, List.length_cons]
      omega
    · subst hr
      simp only [Reader.rank]
      omega
  case send line =>
    rcases readerStep_send h with hc | ⟨-, hrecv, h1, h2, h3⟩
    · simp only [Run.readerStep] at h
      have hs : s.send ⟨name, line⟩ = some none := by
        rcases send_cases s ⟨name, line⟩ with ⟨_, hs⟩ | ⟨hc', _, _⟩ | ⟨hc', _, _⟩
        · exact hs
        · rw [hc] at hc'; simp at hc'
        · rw [hc] at hc'; simp at hc'
      rw [hs] at h
      simp only [Option.some.injEq, Prod.mk.injEq] at h
      obtain ⟨h1, h2, h3⟩ := h
      subst h1 h2 h3
      simp [Reader.rank]
    · subst h1 h2 h3
      simp [Reader.rank, hrecv, Handler.rank]
      omega
  case loopDone =>
    simp only [Run.readerStep, Option.some.injEq, Prod.mk.injEq] at h
    obtain ⟨h1, h2, h3⟩ := h
    subst h1 h2 h3
    simp [Reader.rank]

theorem fuel_processStep (env : Env) (s s' : Run) (h : s.processStep env = some s') :
    s'.fuel env < s.fuel env := by
  obtain ⟨hp, -, -, hs'⟩ := processStep_eq h
  subst hs'
  simp [Run.fuel, hp, linesLeft, Proc.rank]

theorem fuel_step (env : Env) (t : Task) (s s' : Run) (hinv : Inv env s)
    (hpipes : Pipes env s) (h : s.step env t = some s') : s'.fuel env < s.fuel env := by
  unfold Run.step at h
  split at h
  · simp at h
  · cases t
    · exact fuel_handlerStep env s s' hinv h
    · simp only at h
      split at h
      · simp at h
      · rename_i r pipe s1 hr
        obtain ⟨h1, h2, h3, h4, h5, h6, -⟩ := readerStep_pipes _ _ _ _ _ _ _ hr
        have h7 := fuel_readerStep "stdout" _ _ _ _ _ _ env.stdoutRead hr
        simp only [Option.some.injEq] at h
        subst h
        simp only [Run.fuel, h2, h3, h4, h6]
        omega
    · simp only at h
      split at h
      · simp at h
      · rename_i r pipe s1 hr
        obtain ⟨h1, h2, h3, h4, h5, h6, -⟩ := readerStep_pipes _ _ _ _ _ _ _ hr
        have h7 := fuel_readerStep "stderr" _ _ _ _ _ _ env.stderrRead hr
        simp only [Option.some.injEq] at h
        subst h
        simp only [Run.fuel, h1, h3, h4, h5]
        omega
    · exact fuel_waiterStep env s s' hinv hpipes h
    · exact fuel_processStep env s s' h

/-! ## Runs -/

theorem exec_append (env : Env) (s : Run) (a b : List Task) :
    Run.exec env s (a ++ b) = (Run.exec env s a).bind (fun s1 => Run.exec env s1 b) := by
  induction a generalizing s with
  | nil => simp [Run.exec]
  | cons t ts ih =>
    simp only [List.cons_append, Run.exec]
    cases s.step env t with
    | none => simp
    | some s1 => simpa using ih s1

theorem fuel_exec (env : Env) (sched : List Task) (s s' : Run) (hinv : Inv env s)
    (hpipes : Pipes env s) (h : Run.exec env s sched = some s') :
    sched.length + s'.fuel env ≤ s.fuel env := by
  induction sched generalizing s with
  | nil =>
    simp only [Run.exec, Option.some.injEq] at h
    subst h
    simp
  | cons t ts ih =>
    simp only [Run.exec] at h
    split at h
    · simp at h
    · rename_i s1 hs1
      have h1 := fuel_step env t s s1 hinv hpipes hs1
      have h2 := ih s1 (inv_step env t s s1 hinv hs1) (pipes_step env t s s1 hinv hpipes hs1) h
      simp only [List.length_cons]
      omega

theorem halted_iff (env : Env) (s : Run) :
    Run.halted env s = true ↔ ∀ t, s.step env t = none := by
  simp only [Run.halted, List.all_cons, List.all_nil, Bool.and_true, Bool.and_eq_true,
    Option.isNone_iff_eq_none]
  constructor
  · rintro ⟨h1, h2, h3, h4, h5⟩ t
    cases t <;> assumption
  · intro h
    exact ⟨h _, h _, h _, h _, h _⟩

theorem halted_cases {env : Env} {s : Run} (hinv : Inv env s) (hpipes : Pipes env s)
    (hh : Run.halted env s = true) :
    s.crashed = true ∨ (∃ p, s.handler = .returned p) ∨
      s.stdoutPipe.stopsEarly = true ∨ s.stderrPipe.stopsEarly = true := by
  by_cases hc : s.crashed = true
  · exact Or.inl hc
  · right
    by_contra hne
    simp only [not_or, not_exists] at hne
    obtain ⟨hne', ho, he⟩ := hne
    obtain ⟨t, ht⟩ := progress env s hinv hpipes (by simpa using hc) hne'
      (by simpa using ho) (by simpa using he)
    rw [(halted_iff env s).1 hh t] at ht
    simp at ht

theorem can_finish (env : Env) (n : Nat) (s : Run) (hinv : Inv env s) (hpipes : Pipes env s)
    (hn : s.fuel env ≤ n) :
    ∃ more s', Run.exec env s more = some s' ∧ Run.halted env s' = true := by
  induction n generalizing s with
  | zero =>
    refine ⟨[], s, rfl, ?_⟩
    rw [halted_iff]
    intro t
    cases hs : s.step env t with
    | none => rfl
    | some s1 =>
      have := fuel_step env t s s1 hinv hpipes hs
      omega
  | succ n ih =>
    by_cases hh : Run.halted env s = true
    · exact ⟨[], s, rfl, hh⟩
    · have : ∃ t, s.step env t ≠ none := by
        by_contra hne
        exact hh ((halted_iff env s).2 (fun t => by
          by_contra ht
          exact hne ⟨t, ht⟩))
      obtain ⟨t, ht⟩ := this
      obtain ⟨s1, hs1⟩ := Option.ne_none_iff_exists'.1 ht
      have hf := fuel_step env t s s1 hinv hpipes hs1
      obtain ⟨more, s', hm, hh'⟩ := ih s1 (inv_step env t s s1 hinv hs1)
        (pipes_step env t s s1 hinv hpipes hs1) (by omega)
      refine ⟨t :: more, s', ?_, hh'⟩
      simp [Run.exec, hs1, hm]

/-! ## What a scanner yields -/

theorem scanned_initial (lines : List String) :
    ∃ rest, scanned lines ++ rest = lines.map dropCR := by
  induction lines with
  | nil => exact ⟨[], by simp [scanned]⟩
  | cons raw rest ih =>
    simp only [scanned]
    by_cases hlen : len raw < MaxScanTokenSize
    · obtain ⟨more, hmore⟩ := ih
      exact ⟨more, by simp [hlen, hmore]⟩
    · exact ⟨(raw :: rest).map dropCR, by simp [hlen]⟩

theorem scanned_fits (lines : List String)
    (h : ∀ raw ∈ lines, len raw < MaxScanTokenSize) :
    scanned lines = lines.map dropCR := by
  induction lines with
  | nil => rfl
  | cons raw rest ih =>
    have hraw : len raw < MaxScanTokenSize := h raw (by simp)
    have hrest : ∀ x ∈ rest, len x < MaxScanTokenSize := fun x hx => h x (by simp [hx])
    simp only [scanned, hraw, if_true, List.map_cons, ih hrest]

theorem scanned_all (text : String) (h : fitsAll text) :
    scanned (rawLines text) = lineSplit text :=
  scanned_fits _ h

theorem no_early_stop {text : String} {readErr : Option Nat} {r : Reader} {pipe : Pipe}
    {proc : Proc} (h : PipeOk text readErr r pipe proc) (hr : readErr = none)
    (hf : fitsAll text) : pipe.stopsEarly = false := by
  obtain ⟨h1, -, h3, -, -⟩ := h
  subst hr
  unfold Pipe.stopsEarly
  rw [h1 rfl]
  cases hl : pipe.lines with
  | nil => simp
  | cons raw rest =>
    have := hf raw (h3 raw (by rw [hl]; simp))
    simp only [Bool.false_or, decide_eq_false_iff_not]
    omega

theorem reads_all_no_stop {env : Env} {s : Run} (hpipes : Pipes env s) (hr : env.readsAll) :
    s.stdoutPipe.stopsEarly = false ∧ s.stderrPipe.stopsEarly = false :=
  ⟨no_early_stop hpipes.1 hr.1 hr.2.2.1, no_early_stop hpipes.2 hr.2.1 hr.2.2.2⟩

/-! ## What the invariant gives at the end of a run -/

theorem closed_facts {env : Env} {s : Run} (hinv : Inv env s) (hc : s.closed = true) :
    env.starts ∧ s.waiter = .done ∧ s.stdout = .done ∧ s.stderr = .done ∧
      s.proc = .exited ∧ s.crashed = false ∧ Terminal (errorData env.waitErr) s.sent ∧
      dataOf "stdout" s.sent = scanned (rawLines env.stdoutRead) ∧
      dataOf "stderr" s.sent = scanned (rawLines env.stderrRead) ∧
      Named s.sent := by
  rcases hinv with he | ⟨hp1, hp2, hw, ho, he, hwg, hn, hwr, hl⟩
  · have := (early_facts he).2.2.2.2.1
    rw [hc] at this; simp at this
  · obtain ⟨hd, so, se, w, p, wg, cl, cr, po, pe, sent, body⟩ := s
    simp only at hw ho he hwg hn hwr hl hc
    subst hc
    cases w <;> simp [WaiterOk] at hw
    obtain ⟨h1, h2, h3, h4, h5, h7⟩ := hw
    subst h1 h4 h5 h7
    simp only [ReaderOk, yields] at ho he
    exact ⟨⟨hp1, hp2, h2⟩, rfl, rfl, rfl, rfl, rfl, h3, ho, he, hn⟩

theorem crashed_facts {env : Env} {s : Run} (hinv : Inv env s) (hc : s.crashed = true) :
    env.stdoutPipeErr = none ∧ env.stderrPipeErr = none ∧ s.waiter = .panicked ∧
      s.closed = false ∧ ∃ d, env.startErr = some d ∧ s.sent = [⟨"error", d⟩] := by
  rcases hinv with he | ⟨hp1, hp2, hw, ho, he, hwg, hn, hwr, hl⟩
  · have := (early_facts he).2.2.2.2.2.1
    rw [hc] at this; simp at this
  · obtain ⟨hd, so, se, w, p, wg, cl, cr, po, pe, sent, body⟩ := s
    simp only at hw ho he hwg hn hwr hl hc
    subst hc
    cases w <;> simp [WaiterOk] at hw
    obtain ⟨-, h2, h3⟩ := hw
    exact ⟨hp1, hp2, rfl, h3, h2⟩

theorem returned_facts {env : Env} {s : Run} (hinv : Inv env s) {p : Bool}
    (hr : s.handler = .returned p) :
    (p = false ∧ s.closed = true) ∨
    (p = true ∧ (env.stdoutPipeErr ≠ none ∨ env.stderrPipeErr ≠ none) ∧
      Spawning s .unspawned .unspawned 0) := by
  rcases hinv with he | ⟨hp1, hp2, hw, ho, he, hwg, hn, hwr, hl⟩
  · right
    unfold Early at he
    rw [hr] at he
    cases p
    · exact absurd he (by simp)
    · exact ⟨rfl, he⟩
  · left
    rw [hr] at hl
    cases p
    · exact ⟨rfl, hl⟩
    · exact absurd hl (by simp [HandlerOk])

theorem pipe_failed_facts {env : Env} {s : Run} (hinv : Inv env s)
    (hp : env.stdoutPipeErr ≠ none ∨ env.stderrPipeErr ≠ none) :
    s.sent = [] ∧ s.crashed = false ∧ s.closed = false ∧ s.proc = .notStarted ∧
      s.waiter = .unspawned := by
  rcases hinv with he | ⟨hp1, hp2, -⟩
  · obtain ⟨h1, h2, h3, -, h5, h6, -⟩ := early_facts he
    exact ⟨h3, h6, h5, h2, h1⟩
  · rcases hp with hp | hp
    · exact absurd hp1 hp
    · exact absurd hp2 hp

theorem sent_shape {env : Env} {s : Run} (hinv : Inv env s) :
    NoError s.sent ∨ ∃ d, Terminal d s.sent := by
  rcases hinv with he | ⟨hp1, hp2, hw, -⟩
  · left
    rw [(early_facts he).2.2.1]
    exact noError_nil
  · obtain ⟨hd, so, se, w, p, wg, cl, cr, po, pe, sent, body⟩ := s
    simp only at hw ⊢
    cases w <;> simp only [WaiterOk] at hw
    · left; rw [hw.2.1]; exact noError_nil
    · left; rw [hw.2.2.1]; exact noError_nil
    · obtain ⟨-, ⟨d, -, hs⟩, -⟩ := hw
      exact Or.inr ⟨d, [], by simpa using hs, noError_nil⟩
    · exact Or.inl hw.2.2.1
    · exact Or.inl hw.2.2.1
    · exact Or.inl hw.2.2.1
    · exact Or.inr ⟨_, hw.2.2.1⟩
    · exact Or.inr ⟨_, hw.2.2.1⟩
    · obtain ⟨-, ⟨d, -, hs⟩, -⟩ := hw
      exact Or.inr ⟨d, [], by simpa using hs, noError_nil⟩

theorem errorCount_snoc (evs : List Event) (e : Event) :
    errorCount (evs ++ [e]) = errorCount evs + (if e.name = "error" then 1 else 0) := by
  unfold errorCount
  by_cases h : e.name = "error" <;> simp [List.filter_append, h]

theorem errorCount_noError {evs : List Event} (h : NoError evs) : errorCount evs = 0 := by
  unfold errorCount
  rw [List.length_eq_zero, List.filter_eq_nil_iff]
  intro e he
  simpa using h e he

theorem errorCount_terminal {d : String} {evs : List Event} (h : Terminal d evs) :
    errorCount evs = 1 := by
  obtain ⟨pre, hs, hn⟩ := h
  rw [hs, errorCount_snoc, errorCount_noError hn]
  simp

theorem readerOk_initial {name : String} {lines : List String} {r : Reader}
    {pipe : Pipe} {sent : List Event} (h : ReaderOk name lines r pipe sent) :
    ∃ rest, dataOf name sent ++ rest = lines := by
  cases r <;> simp only [ReaderOk] at h
  · exact ⟨_, h⟩
  · exact ⟨_, h⟩
  · exact ⟨[], by simpa using h⟩
  · exact ⟨[], by simpa using h⟩

theorem readerOk_sofar {name text : String} {readErr : Option Nat} {p : Proc} {r : Reader}
    {pipe : Pipe} {sent : List Event}
    (h : ReaderOk name (yields text readErr p) r pipe sent) :
    ∃ rest, dataOf name sent ++ rest = scanned (rawLines (readable text readErr)) := by
  obtain ⟨rest, hrest⟩ := readerOk_initial h
  cases p <;> simp only [yields] at hrest
  case running => exact ⟨rest, hrest⟩
  case ended => exact ⟨rest, hrest⟩
  case exited => exact ⟨rest, hrest⟩
  all_goals
    refine ⟨scanned (rawLines (readable text readErr)), ?_⟩
    rw [(List.append_eq_nil.1 hrest).1]
    rfl

theorem started_shape {env : Env} {s : Run} (hinv : Inv env s) (hs : env.startErr = none) :
    (NoError s.sent ∧
      (∃ rest, dataOf "stdout" s.sent ++ rest = scanned (rawLines env.stdoutRead)) ∧
      (∃ rest, dataOf "stderr" s.sent ++ rest = scanned (rawLines env.stderrRead)) ∧
      s.closed = false) ∨
    (Terminal (errorData env.waitErr) s.sent ∧
      dataOf "stdout" s.sent = scanned (rawLines env.stdoutRead) ∧
      dataOf "stderr" s.sent = scanned (rawLines env.stderrRead) ∧
      s.stdout = .done ∧ s.stderr = .done) := by
  rcases hinv with he | ⟨hp1, hp2, hw, ho, he, hwg, hn, hwr, hl⟩
  · left
    obtain ⟨-, -, h3, -, h5, -⟩ := early_facts he
    rw [h3]
    exact ⟨noError_nil, ⟨scanned (rawLines env.stdoutRead), by simp [dataOf_nil]⟩,
      ⟨scanned (rawLines env.stderrRead), by simp [dataOf_nil]⟩, h5⟩
  · have ho' := readerOk_sofar ho
    have he' := readerOk_sofar he
    obtain ⟨hd, so, se, w, p, wg, cl, cr, po, pe, sent, body⟩ := s
    simp only at hw ho he hwg hn hwr hl ho' he' ⊢
    cases w <;> simp only [WaiterOk] at hw
    · left
      obtain ⟨-, h2, -, -, h5, -⟩ := hw
      subst h2
      exact ⟨noError_nil, ho', he', h5⟩
    · rw [hs] at hw; simp at hw
    · rw [hs] at hw; simp at hw
    · exact Or.inl ⟨hw.2.2.1, ho', he', hw.2.2.2.1⟩
    · exact Or.inl ⟨hw.2.2.1, ho', he', hw.2.2.2.2.2.1⟩
    · exact Or.inl ⟨hw.2.2.1, ho', he', hw.2.2.2.2.2.2.1⟩
    · right
      obtain ⟨h1, -, h3, h4, h5, -⟩ := hw
      subst h1 h4 h5
      simp only [ReaderOk, yields] at ho he
      exact ⟨h3, ho, he, rfl, rfl⟩
    · right
      obtain ⟨h1, -, h3, h4, h5, -⟩ := hw
      subst h1 h4 h5
      simp only [ReaderOk, yields] at ho he
      exact ⟨h3, ho, he, rfl, rfl⟩
    · rw [hs] at hw; simp at hw

theorem halted_closed {env : Env} {s : Run} (hinv : Inv env s) (hpipes : Pipes env s)
    (hs : env.starts) (hso : s.stdoutPipe.stopsEarly = false)
    (hse : s.stderrPipe.stopsEarly = false)
    (hh : Run.halted env s = true) : s.closed = true ∧ s.handler = .returned false := by
  rcases halted_cases hinv hpipes hh with hc | ⟨p, hp⟩ | hst | hst
  · obtain ⟨-, -, -, -, d, hd, -⟩ := crashed_facts hinv hc
    rw [hs.2.2] at hd; simp at hd
  · rcases returned_facts hinv hp with ⟨h1, h2⟩ | ⟨-, h2, -⟩
    · subst h1; exact ⟨h2, hp⟩
    · rcases h2 with h2 | h2
      · exact absurd hs.1 h2
      · exact absurd hs.2.1 h2
  · rw [hso] at hst; simp at hst
  · rw [hse] at hst; simp at hst

/-! ## What a step writes -/

theorem waiterStep_effect (env : Env) (s s' : Run) (h : s.waiterStep env = some s') :
    s'.body = s.body ∧
      ((s'.handler = s.handler ∧ s'.sent = s.sent) ∨
       (s.handler = .receive ∧ ∃ e, s'.handler = .ssevent e ∧ s'.sent = s.sent ++ [e])) := by
  obtain ⟨hd, so, se, w, p, wg, cl, cr, po, pe, sent, body⟩ := s
  cases w <;> simp only [Run.waiterStep] at h
  case unspawned => simp at h
  case done => simp at h
  case panicked => simp at h
  case start => split at h <;> simp only [Option.some.injEq] at h <;> subst h <;> simp
  case wgWait =>
    split at h
    · simp only [Option.some.injEq] at h; subst h; simp
    · simp at h
  case cmdWait =>
    cases p <;> simp only [Option.some.injEq, reduceCtorEq] at h
    subst h; simp
  case sendStartErr d =>
    split at h
    · simp at h
    · simp only [Option.some.injEq] at h; subst h; simp
    · rename_i r hsend
      obtain ⟨-, hrecv, hr⟩ := send_some_some hsend
      simp only at hrecv hr
      simp only [Option.some.injEq] at h
      subst h hr hrecv
      simp
  case sendExit d =>
    split at h
    · simp at h
    · simp only [Option.some.injEq] at h; subst h; simp
    · rename_i r hsend
      obtain ⟨-, hrecv, hr⟩ := send_some_some hsend
      simp only at hrecv hr
      simp only [Option.some.injEq] at h
      subst h hr hrecv
      simp
  all_goals
    simp only [Option.some.injEq] at h
    subst h
    simp

theorem readerStep_effect (name : String) (r r' : Reader) (pipe pipe' : Pipe)
    (s s1 : Run) (h : s.readerStep name r pipe = some (r', pipe', s1)) :
    s1.body = s.body ∧
      ((s1.handler = s.handler ∧ s1.sent = s.sent) ∨
       (s.handler = .receive ∧ ∃ e, s1.handler = .ssevent e ∧ s1.sent = s.sent ++ [e])) := by
  cases r
  case unspawned => simp [Run.readerStep] at h
  case done => simp [Run.readerStep] at h
  case panicked => simp [Run.readerStep] at h
  case scan =>
    obtain ⟨-, h1, -⟩ := readerStep_scan h
    subst h1
    simp
  case send line =>
    rcases readerStep_send h with hc | ⟨-, hrecv, h1, h2, h3⟩
    · simp only [Run.readerStep] at h
      have hs : s.send ⟨name, line⟩ = some none := by
        rcases send_cases s ⟨name, line⟩ with ⟨_, hs⟩ | ⟨hc', _, _⟩ | ⟨hc', _, _⟩
        · exact hs
        · rw [hc] at hc'; simp at hc'
        · rw [hc] at hc'; simp at hc'
      rw [hs] at h
      simp only [Option.some.injEq, Prod.mk.injEq] at h
      obtain ⟨h1, h2, h3⟩ := h
      subst h3
      simp
    · subst h3
      simp [hrecv]
  case loopDone =>
    simp only [Run.readerStep, Option.some.injEq, Prod.mk.injEq] at h
    obtain ⟨h1, h2, h3⟩ := h
    subst h3
    simp

theorem other_step_effect (env : Env) (t : Task) (s s' : Run) (ht : t ≠ .handler)
    (h : s.step env t = some s') :
    s'.body = s.body ∧
      ((s'.handler = s.handler ∧ s'.sent = s.sent) ∨
       (s.handler = .receive ∧ ∃ e, s'.handler = .ssevent e ∧ s'.sent = s.sent ++ [e])) := by
  unfold Run.step at h
  split at h
  · simp at h
  · cases t
    · exact absurd rfl ht
    · simp only at h
      split at h
      · simp at h
      · rename_i r pipe s1 hr
        simp only [Option.some.injEq] at h
        subst h
        exact readerStep_effect _ _ _ _ _ s s1 hr
    · simp only at h
      split at h
      · simp at h
      · rename_i r pipe s1 hr
        simp only [Option.some.injEq] at h
        subst h
        exact readerStep_effect _ _ _ _ _ s s1 hr
    · exact waiterStep_effect env s s' h
    · obtain ⟨-, -, -, hs'⟩ := processStep_eq h
      subst hs'
      simp

theorem handler_step_eq (env : Env) (s s' : Run) (h : s.step env .handler = some s') :
    s.handlerStep env = some s' := by
  unfold Run.step at h
  split at h
  · simp at h
  · exact h

/-! ## Runs with lines that do not fit the buffer -/

theorem utf8_replicate (n : Nat) : String.utf8ByteSize.go (List.replicate n 'x') = n := by
  induction n with
  | zero => rfl
  | succ k ih =>
    simp only [List.replicate_succ, String.utf8ByteSize.go, ih]
    rfl

theorem len_longLine (n : Nat) : len (longLine n) = n :=
  utf8_replicate n

theorem splitLines_append (cur line rest : List Char) (h : '\n' ∉ line) :
    splitLines cur (line ++ '\n' :: rest) = String.mk (cur ++ line) :: splitLines [] rest := by
  induction line generalizing cur with
  | nil => simp [splitLines]
  | cons c cs ih =>
    have hc : c ≠ '\n' := by
      intro hc; apply h; simp [hc]
    have hcs : '\n' ∉ cs := by
      intro hcs; apply h; simp [hcs]
    have := ih (cur ++ [c]) hcs
    simp only [List.cons_append, splitLines, if_neg hc]
    simpa using this

theorem rawLines_cons (line rest : String) (h : '\n' ∉ line.data) :
    rawLines (line ++ "\n" ++ rest) = line :: rawLines rest := by
  have := splitLines_append [] line.data rest.data h
  simp only [rawLines, String.data_append]
  simp only [List.nil_append] at this
  rw [List.append_assoc]
  exact this

theorem longLine_data (n : Nat) : '\n' ∉ (longLine n).data := by
  simp [longLine, List.mem_replicate]

theorem rawLines_overlong (n : Nat) :
    rawLines (overlong n).stdout = [longLine n, "after"] := by
  have h1 := rawLines_cons (longLine n) "after\n" (longLine_data _)
  have h2 : rawLines "after\n" = ["after"] := by decide
  rw [h2] at h1
  exact h1

theorem rawLines_flood (n : Nat) : rawLines (flood n).stdout = [longLine n, longLine n] := by
  have h1 := rawLines_cons (longLine n) (longLine n ++ "\n") (longLine_data _)
  have h2 := rawLines_cons (longLine n) "" (longLine_data _)
  have h3 : rawLines "" = [] := rfl
  have h4 : longLine n ++ "\n" = longLine n ++ "\n" ++ "" := by simp
  rw [← String.append_assoc] at h1
  rw [h4, h2, h3] at h1
  simp only [String.append_empty] at h1
  exact h1

theorem dropCR_longLine (n : Nat) : dropCR (longLine n) = longLine n := by
  unfold dropCR
  rw [if_neg]
  intro h
  have := List.mem_of_getLast?_eq_some h
  simp [longLine, List.mem_replicate] at this

theorem lineSplit_overlong (n : Nat) :
    lineSplit (overlong n).stdout = [longLine n, "after"] := by
  unfold lineSplit
  rw [rawLines_overlong]
  simp only [List.map_cons, List.map_nil, dropCR_longLine]
  have : dropCR "after" = "after" := by decide
  rw [this]

theorem start_none (text : String) :
    Pipe.start text none =
      { lines := rawLines text, held := 0, fails := false, beyond := 0 } := by
  simp [Pipe.start, readable]

theorem start_nothing :
    Pipe.start "" none = { lines := [], held := 0, fails := false, beyond := 0 } := by
  rw [start_none]
  rfl

theorem flood_start (n : Nat) : v1Sync (flood n) (startup ++ [.handler]) =
    some { handler := .receive, stdout := .scan, stderr := .scan, waiter := .wgWait,
           proc := .running, wg := 2, closed := false, crashed := false,
           stdoutPipe := Pipe.start (flood n).stdout none,
           stderrPipe := Pipe.start "" none,
           sent := [], body := "" } := rfl

theorem flood_run (n : Nat) (h : MaxScanTokenSize ≤ n) : v1Sync (flood n) floodRun =
    some { handler := .receive, stdout := .done, stderr := .scan, waiter := .wgWait,
           proc := .running, wg := 1, closed := false, crashed := false,
           stdoutPipe := { lines := [longLine n, longLine n],
                           held := MaxScanTokenSize, fails := false, beyond := 0 },
           stderrPipe := { lines := [], held := 0, fails := false, beyond := 0 },
           sent := [], body := "" } := by
  have e : floodRun = (startup ++ [.handler]) ++ [.stdoutReader, .stdoutReader] := rfl
  have hlong : ¬ n < MaxScanTokenSize := by omega
  rw [e, v1Sync, exec_append, ← v1Sync, flood_start, start_none, start_nothing,
    rawLines_flood]
  simp [Run.exec, Run.step, Run.readerStep, Scan, len_longLine, hlong, Proc.pipesClosed]

theorem flood_halted (n : Nat) (h : MaxScanTokenSize ≤ n) : Run.halted (flood n)
    { handler := .receive, stdout := .done, stderr := .scan, waiter := .wgWait,
      proc := .running, wg := 1, closed := false, crashed := false,
      stdoutPipe := { lines := [longLine n, longLine n],
                      held := MaxScanTokenSize, fails := false, beyond := 0 },
      stderrPipe := { lines := [], held := 0, fails := false, beyond := 0 },
      sent := [], body := "" } = true := by
  have hfull : ¬ (n + 1 + (n + 1) - MaxScanTokenSize ≤ 65536) := by
    unfold MaxScanTokenSize at h ⊢
    omega
  simp [Run.halted, Run.step, Run.handlerStep, Run.readerStep, Run.waiterStep,
    Run.processStep, Scan, Proc.pipesClosed, Pipe.unread, len_longLine, flood, hfull]

theorem flood_unread (n : Nat) :
    Pipe.unread { lines := [longLine n, longLine n], held := MaxScanTokenSize,
                  fails := false, beyond := 0 } = 2 * n + 2 - 65536 := by
  simp only [Pipe.unread, List.map_cons, List.map_nil, List.sum_cons, List.sum_nil,
    len_longLine, MaxScanTokenSize]
  omega

theorem overlong_start (n : Nat) : v1Sync (overlong n) startup =
    some { handler := .stream, stdout := .scan, stderr := .scan, waiter := .wgWait,
           proc := .running, wg := 2, closed := false, crashed := false,
           stdoutPipe := Pipe.start (overlong n).stdout none,
           stderrPipe := Pipe.start "" none,
           sent := [], body := "" } := rfl

theorem overlong_unread (n : Nat) (h : n ≤ 131065) :
    Pipe.unread { lines := [longLine n, "after"], held := MaxScanTokenSize,
                  fails := false, beyond := 0 } ≤ 65536 := by
  have h5 : len "after" = 5 := by decide
  simp only [Pipe.unread, List.map_cons, List.map_nil, List.sum_cons, List.sum_nil,
    len_longLine, h5, MaxScanTokenSize]
  omega

theorem overlong_scans (n : Nat) (h1 : MaxScanTokenSize ≤ n) :
    Run.exec (overlong n)
      { handler := .stream, stdout := .scan, stderr := .scan, waiter := .wgWait,
        proc := .running, wg := 2, closed := false, crashed := false,
        stdoutPipe := { lines := [longLine n, "after"], held := 0, fails := false,
                        beyond := 0 },
        stderrPipe := { lines := [], held := 0, fails := false, beyond := 0 },
        sent := [], body := "" }
      [.stdoutReader, .stdoutReader] =
    some { handler := .stream, stdout := .done, stderr := .scan, waiter := .wgWait,
           proc := .running, wg := 1, closed := false, crashed := false,
           stdoutPipe := { lines := [longLine n, "after"], held := MaxScanTokenSize,
                           fails := false, beyond := 0 },
           stderrPipe := { lines := [], held := 0, fails := false, beyond := 0 },
           sent := [], body := "" } := by
  have hlong : ¬ n < MaxScanTokenSize := by omega
  simp [Run.exec, Run.step, Run.readerStep, Scan, len_longLine, hlong, Proc.pipesClosed]

theorem exec_cons (env : Env) (s : Run) (t : Task) (ts : List Task) :
    Run.exec env s (t :: ts) = (s.step env t).bind (fun s1 => Run.exec env s1 ts) := by
  cases h : s.step env t <;> simp [Run.exec, h]

theorem overlong_ends (n : Nat) (h2 : n ≤ 131065) :
    Run.step (overlong n) .subprocess
      { handler := .stream, stdout := .done, stderr := .scan, waiter := .wgWait,
        proc := .running, wg := 1, closed := false, crashed := false,
        stdoutPipe := { lines := [longLine n, "after"], held := MaxScanTokenSize,
                        fails := false, beyond := 0 },
        stderrPipe := { lines := [], held := 0, fails := false, beyond := 0 },
        sent := [], body := "" } =
    some { handler := .stream, stdout := .done, stderr := .scan, waiter := .wgWait,
           proc := .ended, wg := 1, closed := false, crashed := false,
           stdoutPipe := { lines := [longLine n, "after"], held := MaxScanTokenSize,
                           fails := false, beyond := 0 },
           stderrPipe := { lines := [], held := 0, fails := false, beyond := 0 },
           sent := [], body := "" } := by
  have hun := overlong_unread n h2
  have hp : (overlong n).pipeSize = 65536 := rfl
  have h0 : Pipe.unread { lines := [], held := 0, fails := false, beyond := 0 } = 0 := rfl
  simp only [Run.step, Run.processStep, hp, h0]
  rw [if_neg (by simp), if_pos ⟨hun, by omega⟩]

theorem overlong_eof (n : Nat) :
    Run.exec (overlong n)
      { handler := .stream, stdout := .done, stderr := .scan, waiter := .wgWait,
        proc := .ended, wg := 1, closed := false, crashed := false,
        stdoutPipe := { lines := [longLine n, "after"], held := MaxScanTokenSize,
                        fails := false, beyond := 0 },
        stderrPipe := { lines := [], held := 0, fails := false, beyond := 0 },
        sent := [], body := "" }
      ([.stderrReader, .stderrReader] ++ finish) =
    some { handler := .returned false, stdout := .done, stderr := .done, waiter := .done,
           proc := .exited, wg := 0, closed := true, crashed := false,
           stdoutPipe := { lines := [longLine n, "after"], held := MaxScanTokenSize,
                           fails := false, beyond := 0 },
           stderrPipe := { lines := [], held := 0, fails := false, beyond := 0 },
           sent := [⟨"error", ""⟩], body := "event:error\ndata:\n\n" } := rfl

theorem overlong_run (n : Nat) (h1 : MaxScanTokenSize ≤ n) (h2 : n ≤ 131065) :
    v1Sync (overlong n) overlongRun =
    some { handler := .returned false, stdout := .done, stderr := .done, waiter := .done,
           proc := .exited, wg := 0, closed := true, crashed := false,
           stdoutPipe := { lines := [longLine n, "after"], held := MaxScanTokenSize,
                           fails := false, beyond := 0 },
           stderrPipe := { lines := [], held := 0, fails := false, beyond := 0 },
           sent := [⟨"error", ""⟩], body := "event:error\ndata:\n\n" } := by
  have e : overlongRun = startup ++ ([.stdoutReader, .stdoutReader] ++
      ([.subprocess] ++ ([.stderrReader, .stderrReader] ++ finish))) := rfl
  rw [e, v1Sync, exec_append, ← v1Sync, overlong_start, start_none, start_nothing,
    rawLines_overlong, Option.some_bind,
    exec_append, overlong_scans n h1, Option.some_bind, List.singleton_append, exec_cons,
    overlong_ends n h2, Option.some_bind]
  exact overlong_eof n

theorem overlong_halted (n : Nat) : Run.halted (overlong n)
    { handler := .returned false, stdout := .done, stderr := .done, waiter := .done,
      proc := .exited, wg := 0, closed := true, crashed := false,
      stdoutPipe := { lines := [longLine n, "after"], held := MaxScanTokenSize,
                      fails := false, beyond := 0 },
      stderrPipe := { lines := [], held := 0, fails := false, beyond := 0 },
      sent := [⟨"error", ""⟩], body := "event:error\ndata:\n\n" } = true := rfl

/-! ## C1: the "error" event -/

/-- C1 (as amended): for every run of `v1Sync` in which both pipes are obtained, under
every interleaving, the events sent on the channel up to any point are either free of
"error" events or end in their only "error" event (so there is at most one and nothing
follows it); once the waiter has closed the channel or has panicked there is exactly
one "error" event and it is the last event; and so there is once the run has ended,
with no task able to take a step, unless a scanner has stopped before the end of its
channel, which it does not when no read fails and every line fits its buffer. -/
theorem error_event_once_and_last (env : Env) (sched : List Task) (s : Run)
    (hout : env.stdoutPipeErr = none) (herr : env.stderrPipeErr = none)
    (h : v1Sync env sched = some s) :
    (NoError s.sent ∨ ∃ d, Terminal d s.sent) ∧ errorCount s.sent ≤ 1 ∧
      (s.closed = true ∨ s.crashed = true →
        errorCount s.sent = 1 ∧ ∃ d, Terminal d s.sent) ∧
      (Run.halted env s = true → s.stdoutPipe.stopsEarly = false →
        s.stderrPipe.stopsEarly = false →
        errorCount s.sent = 1 ∧ ∃ d, Terminal d s.sent) ∧
      (env.readsAll →
        s.stdoutPipe.stopsEarly = false ∧ s.stderrPipe.stopsEarly = false) := by
  have hinv := inv_reachable ⟨sched, h⟩
  have hpipes := pipes_reachable ⟨sched, h⟩
  have hshape := sent_shape hinv
  refine ⟨hshape, ?_, ?_, ?_, reads_all_no_stop hpipes⟩
  · rcases hshape with hn | ⟨d, ht⟩
    · rw [errorCount_noError hn]; omega
    · rw [errorCount_terminal ht]
  · intro hcc
    have ht : ∃ d, Terminal d s.sent := by
      rcases hcc with hc | hc
      · exact ⟨_, (closed_facts hinv hc).2.2.2.2.2.2.1⟩
      · obtain ⟨-, -, -, -, d, -, hd⟩ := crashed_facts hinv hc
        exact ⟨d, [], by simpa using hd, noError_nil⟩
    obtain ⟨d, hd⟩ := ht
    exact ⟨errorCount_terminal hd, d, hd⟩
  · intro hh hso hse
    have ht : ∃ d, Terminal d s.sent := by
      rcases halted_cases hinv hpipes hh with hc | ⟨p, hp⟩ | hst | hst
      · obtain ⟨-, -, -, -, d, -, hd⟩ := crashed_facts hinv hc
        exact ⟨d, [], by simpa using hd, noError_nil⟩
      · rcases returned_facts hinv hp with ⟨-, h2⟩ | ⟨-, h2, -⟩
        · exact ⟨_, (closed_facts hinv h2).2.2.2.2.2.2.1⟩
        · rcases h2 with h2 | h2
          · exact absurd hout h2
          · exact absurd herr h2
      · rw [hso] at hst; simp at hst
      · rw [hse] at hst; simp at hst
    obtain ⟨d, hd⟩ := ht
    exact ⟨errorCount_terminal hd, d, hd⟩

/-- Witness of the amended C1, the run of the error example: it ends with the three events
of main.go 84-91, one of them named "error", the last. -/
theorem error_event_once_and_last_witness :
    ∃ s, v1Sync failing failingRun = some s ∧ Run.halted failing s = true ∧
      s.sent = [⟨"stdout", "hi there"⟩, ⟨"stderr", "error"⟩, ⟨"error", "exit status 1"⟩] ∧
      errorCount s.sent = 1 ∧ ∃ d, Terminal d s.sent :=
  ⟨_, rfl, rfl, rfl,
    (error_event_once_and_last failing failingRun _ rfl rfl rfl).2.2.2.1 rfl rfl rfl⟩

/-- Counterexample to C1 as stated: when `cmd.StdoutPipe()` fails, `v1Sync` panics before the
channel exists; that run ends with no event at all, hence without an "error" event. -/
theorem no_error_event_when_pipe_fails :
    ∃ s, v1Sync pipeFailure pipeFailureRun = some s ∧
      Run.halted pipeFailure s = true ∧ s.handler = .returned true ∧
      s.sent = [] ∧ errorCount s.sent = 0 :=
  ⟨_, rfl, rfl, rfl, rfl, rfl⟩

/-! ## C2: the lines of the two channels -/

/-- C2 (as amended): for every run in which the subprocess starts, under every
interleaving, the data of the "stdout" events sent so far are, in order, an initial part
of the line-split of what is read of standard output, and the data of the "stderr"
events an initial part of the line-split of what is read of standard error; what is read
of a channel is all that the subprocess writes to it when no read of its pipe fails, and
the part before the read that fails otherwise.  When every line read of a channel is
shorter than 64 KiB, the events of that channel are, once the channel of events is
closed, exactly the line-split of what is read of it.  When no read fails and every line
of both channels is shorter than 64 KiB, a run that has ended has closed the channel,
with the line-split of all that was written to each channel sent. -/
theorem events_are_the_lines_read (env : Env) (sched : List Task) (s : Run)
    (hs : env.starts) (h : v1Sync env sched = some s) :
    (∃ rest, dataOf "stdout" s.sent ++ rest = lineSplit env.stdoutRead) ∧
      (∃ rest, dataOf "stderr" s.sent ++ rest = lineSplit env.stderrRead) ∧
      (env.stdoutReadErr = none → env.stdoutRead = env.stdout) ∧
      (env.stderrReadErr = none → env.stderrRead = env.stderr) ∧
      (fitsAll env.stdoutRead → s.closed = true →
        dataOf "stdout" s.sent = lineSplit env.stdoutRead) ∧
      (fitsAll env.stderrRead → s.closed = true →
        dataOf "stderr" s.sent = lineSplit env.stderrRead) ∧
      (env.readsAll → Run.halted env s = true →
        s.closed = true ∧ dataOf "stdout" s.sent = lineSplit env.stdout ∧
        dataOf "stderr" s.sent = lineSplit env.stderr) := by
  have hinv := inv_reachable ⟨sched, h⟩
  have hpipes := pipes_reachable ⟨sched, h⟩
  have hpre : ∀ (name text : String),
      (∃ rest, dataOf name s.sent ++ rest = scanned (rawLines text)) →
      ∃ rest, dataOf name s.sent ++ rest = lineSplit text := by
    rintro name text ⟨rest, hrest⟩
    obtain ⟨more, hmore⟩ := scanned_initial (rawLines text)
    exact ⟨rest ++ more, by rw [← List.append_assoc, hrest, hmore]; rfl⟩
  refine ⟨?_, ?_, ?_, ?_, ?_, ?_, ?_⟩
  · rcases started_shape hinv hs.2.2 with ⟨-, h1, -⟩ | ⟨-, h1, -⟩
    · exact hpre _ _ h1
    · exact hpre _ _ ⟨[], by simpa using h1⟩
  · rcases started_shape hinv hs.2.2 with ⟨-, -, h1, -⟩ | ⟨-, -, h1, -⟩
    · exact hpre _ _ h1
    · exact hpre _ _ ⟨[], by simpa using h1⟩
  · intro hn
    simp [Env.stdoutRead, readable, hn]
  · intro hn
    simp [Env.stderrRead, readable, hn]
  · intro hfit hc
    obtain ⟨-, -, -, -, -, -, -, h1, -, -⟩ := closed_facts hinv hc
    rw [h1, scanned_all _ hfit]
  · intro hfit hc
    obtain ⟨-, -, -, -, -, -, -, -, h2, -⟩ := closed_facts hinv hc
    rw [h2, scanned_all _ hfit]
  · intro hr hh
    obtain ⟨hso, hse⟩ := reads_all_no_stop hpipes hr
    have hc := (halted_closed hinv hpipes hs hso hse hh).1
    obtain ⟨-, -, -, -, -, -, -, h1, h2, -⟩ := closed_facts hinv hc
    have e1 : env.stdoutRead = env.stdout := by simp [Env.stdoutRead, readable, hr.1]
    have e2 : env.stderrRead = env.stderr := by simp [Env.stderrRead, readable, hr.2.1]
    rw [e1, scanned_all _ hr.2.2.1] at h1
    rw [e2, scanned_all _ hr.2.2.2] at h2
    exact ⟨hc, h1, h2⟩

/-- Witness of the amended C2, the run of the error example: one line on each channel, both
sent when the run has ended. -/
theorem events_are_the_lines_read_witness :
    ∃ s, v1Sync failing failingRun = some s ∧ Run.halted failing s = true ∧
      s.closed = true ∧
      dataOf "stdout" s.sent = ["hi there"] ∧ dataOf "stderr" s.sent = ["error"] :=
  ⟨_, rfl, rfl,
    (events_are_the_lines_read failing failingRun _ ⟨rfl, rfl, rfl⟩ rfl).2.2.2.2.2.2
      ⟨rfl, rfl, by decide, by decide⟩ rfl⟩

/-- Counterexample to C2 as stated: the subprocess starts and the "stdout" events are not
the line-split of what it writes to standard output.  In the first run the read of
standard output fails in the middle of the second line, and the part of that line read
before is sent as an event; in the second the first line has 65536 bytes, `Scan` returns
false at it, and neither that line nor the line "after" is sent.  Both runs end with the
channel closed. -/
theorem lines_lost_when_the_scan_stops :
    (∃ s, v1Sync readFailure readFailureRun = some s ∧ s.closed = true ∧
      lineSplit readFailure.stdout = ["total 64K", "drwxrwxr-x ..."] ∧
      dataOf "stdout" s.sent = ["total 64K", "drwx"]) ∧
    (∃ s, v1Sync (overlong 65536) overlongRun = some s ∧ s.closed = true ∧
      lineSplit (overlong 65536).stdout = [longLine 65536, "after"] ∧
      dataOf "stdout" s.sent = []) :=
  ⟨⟨_, rfl, rfl, rfl, rfl⟩,
   ⟨_, overlong_run 65536 (by decide) (by decide), rfl, lineSplit_overlong 65536, rfl⟩⟩

/-! ## C3: the data of the terminal event -/

theorem exitStatus_ne_empty (code : Nat) : "exit status " ++ toString code ≠ "" := by
  intro h
  have := congrArg String.length h
  simp only [String.length_append] at this
  have h12 : "exit status ".length = 12 := by decide
  rw [h12] at this
  simp at this

/-- C3: for every run in which the subprocess starts, under every interleaving, the
events sent so far hold no "error" event or end in the event
`{"error", errorData env.waitErr}`, and they do end in it once the channel is closed.
Its data is empty when `cmd.Wait` returns no error and the description of the error
when it returns one; for a process that exits with status zero it is empty, and for
one that exits with a status other than zero it is `exit status <code>`, which is
not empty. -/
theorem terminal_event_reports_exit (env : Env) (sched : List Task) (s : Run)
    (hs : env.starts) (h : v1Sync env sched = some s) :
    (NoError s.sent ∨ Terminal (errorData env.waitErr) s.sent) ∧
      (s.closed = true → Terminal (errorData env.waitErr) s.sent) ∧
      (env.waitErr = none → errorData env.waitErr = "") ∧
      (∀ description, env.waitErr = some description →
        errorData env.waitErr = description) ∧
      (∀ code, env.waitErr = exitStatus code →
        (code = 0 → errorData env.waitErr = "") ∧
        (code ≠ 0 → errorData env.waitErr = "exit status " ++ toString code ∧
          errorData env.waitErr ≠ "")) := by
  have hinv := inv_reachable ⟨sched, h⟩
  refine ⟨?_, ?_, ?_, ?_, ?_⟩
  · rcases started_shape hinv hs.2.2 with ⟨h1, -⟩ | ⟨h1, -⟩
    · exact Or.inl h1
    · exact Or.inr h1
  · intro hc
    exact (closed_facts hinv hc).2.2.2.2.2.2.1
  · intro hw
    rw [hw]; rfl
  · intro d hw
    rw [hw]; rfl
  · intro code hw
    rw [hw]
    constructor
    · intro hz
      simp [exitStatus, hz, errorData]
    · intro hz
      have hd : errorData (exitStatus code) = "exit status " ++ toString code := by
        simp [exitStatus, hz, errorData]
      exact ⟨hd, hd ▸ exitStatus_ne_empty code⟩

/-- Witness of C3, the runs of the two examples: exit status 1 gives the terminal event
`{"error", "exit status 1"}`, exit status 0 the terminal event `{"error", ""}`. -/
theorem terminal_event_reports_exit_witness :
    (∃ s, v1Sync failing failingRun = some s ∧ s.closed = true ∧
      Terminal "exit status 1" s.sent) ∧
    (∃ s, v1Sync listing listingRun = some s ∧ s.closed = true ∧
      Terminal "" s.sent) :=
  ⟨⟨_, rfl, rfl,
      (terminal_event_reports_exit failing failingRun _ ⟨rfl, rfl, rfl⟩ rfl).2.1 rfl⟩,
   ⟨_, rfl, rfl,
      (terminal_event_reports_exit listing listingRun _ ⟨rfl, rfl, rfl⟩ rfl).2.1 rfl⟩⟩

/-! ## C5: the response body -/

theorem inv_named {env : Env} {s : Run} (hinv : Inv env s) : Named s.sent := by
  rcases hinv with he | hs
  · rw [(early_facts he).2.2.1]; exact named_nil
  · exact hs.2.2.2.2.2.2.1

theorem inv_written {env : Env} {s : Run} (hinv : Inv env s) :
    Written s.handler s.sent s.body := by
  rcases hinv with he | hs
  · obtain ⟨-, -, h3, h4, -⟩ := early_facts he
    have hne : ∀ e, s.handler ≠ .ssevent e := by
      intro e he'
      unfold Early at he
      rw [he'] at he
      exact he
    rw [h3, h4]
    cases hh : s.handler <;> simp [Written, frames]
    exact absurd hh (hne _)
  · exact hs.2.2.2.2.2.2.2.1

theorem not_started_no_stop {env : Env} {s : Run} (hpipes : Pipes env s)
    (hp : s.proc = .notStarted ∨ s.proc = .startFailed) :
    s.stdoutPipe.stopsEarly = false ∧ s.stderrPipe.stopsEarly = false := by
  rw [hpipes.1.2.2.2.1 hp, hpipes.2.2.2.2.1 hp]
  exact ⟨rfl, rfl⟩

theorem start_failed_proc {env : Env} {s : Run} {d : String} (hinv : Inv env s)
    (hd : env.startErr = some d) : s.proc = .notStarted ∨ s.proc = .startFailed := by
  rcases hinv with he | ⟨-, -, hw, -⟩
  · exact Or.inl (early_facts he).2.1
  · obtain ⟨hd0, so, se, w, p, wg, cl, cr, po, pe, sent, body⟩ := s
    simp only at hw ⊢
    cases w <;> simp only [WaiterOk] at hw <;>
      first
        | (rw [hd] at hw; simp at hw; done)
        | exact Or.inl hw.1
        | exact Or.inr hw.1

/-- C6 (as amended): when `cmd.StdoutPipe()` or `cmd.StderrPipe()` fails, no event is
ever sent, no process is started, and the run ends with the handler having left
`v1Sync` by its panic.  When the pipes are obtained and `cmd.Start()` fails with
description `d`, the events sent are none or the one event `{"error", d}`, and the
run ends with the waiter goroutine panicked after that event was handed over. -/
theorem startup_failure (env : Env) (sched : List Task) (s : Run)
    (h : v1Sync env sched = some s) :
    ((env.stdoutPipeErr ≠ none ∨ env.stderrPipeErr ≠ none) →
      s.sent = [] ∧ s.proc = .notStarted ∧
      (Run.halted env s = true → s.handler = .returned true)) ∧
    (∀ d, env.stdoutPipeErr = none → env.stderrPipeErr = none → env.startErr = some d →
      (s.sent = [] ∨ s.sent = [⟨"error", d⟩]) ∧ s.proc ≠ .running ∧
      (Run.halted env s = true →
        s.waiter = .panicked ∧ s.crashed = true ∧ s.sent = [⟨"error", d⟩])) := by
  have hinv := inv_reachable ⟨sched, h⟩
  have hpipes := pipes_reachable ⟨sched, h⟩
  constructor
  · intro hp
    obtain ⟨h1, h2, h3, h4, -⟩ := pipe_failed_facts hinv hp
    refine ⟨h1, h4, ?_⟩
    intro hh
    obtain ⟨hso, hse⟩ := not_started_no_stop hpipes (Or.inl h4)
    rcases halted_cases hinv hpipes hh with hc | ⟨p, hp'⟩ | hst | hst
    · rw [h2] at hc; simp at hc
    · rcases returned_facts hinv hp' with ⟨-, hcl⟩ | ⟨hpt, -⟩
      · rw [h3] at hcl; simp at hcl
      · rw [hp', hpt]
    · rw [hso] at hst; simp at hst
    · rw [hse] at hst; simp at hst
  · intro d hp1 hp2 hd
    have hhalt : Run.halted env s = true →
        s.waiter = .panicked ∧ s.crashed = true ∧ s.sent = [⟨"error", d⟩] := by
      intro hh
      obtain ⟨hso, hse⟩ := not_started_no_stop hpipes (start_failed_proc hinv hd)
      rcases halted_cases hinv hpipes hh with hc | ⟨p, hp'⟩ | hst | hst
      · obtain ⟨-, -, h3, -, d', hd', hs'⟩ := crashed_facts hinv hc
        rw [hd] at hd'
        simp only [Option.some.injEq] at hd'
        subst hd'
        exact ⟨h3, hc, hs'⟩
      · rcases returned_facts hinv hp' with ⟨-, hcl⟩ | ⟨-, hpf, -⟩
        · have := (closed_facts hinv hcl).1.2.2
          rw [hd] at this; simp at this
        · rcases hpf with hpf | hpf
          · exact absurd hp1 hpf
          · exact absurd hp2 hpf
      · rw [hso] at hst; simp at hst
      · rw [hse] at hst; simp at hst
    refine ⟨?_, ?_, hhalt⟩
    · rcases hinv with he | ⟨-, -, hw, -⟩
      · exact Or.inl (early_facts he).2.2.1
      · obtain ⟨hd0, so, se, w, p, wg, cl, cr, po, pe, sent, body⟩ := s
        simp only at hw ⊢
        cases w <;> simp only [WaiterOk] at hw
        · exact Or.inl hw.2.1
        · exact Or.inl hw.2.2.1
        · obtain ⟨-, ⟨d', hd', hs'⟩, -⟩ := hw
          rw [hd] at hd'
          simp only [Option.some.injEq] at hd'
          subst hd'
          exact Or.inr hs'
        · rw [hd] at hw; simp at hw
        · rw [hd] at hw; simp at hw
        · rw [hd] at hw; simp at hw
        · rw [hd] at hw; simp at hw
        · rw [hd] at hw; simp at hw
        · obtain ⟨-, ⟨d', hd', hs'⟩, -⟩ := hw
          rw [hd] at hd'
          simp only [Option.some.injEq] at hd'
          subst hd'
          exact Or.inr hs'
    · rcases hinv with he | ⟨-, -, hw, -⟩
      · rw [(early_facts he).2.1]; simp
      · obtain ⟨hd0, so, se, w, p, wg, cl, cr, po, pe, sent, body⟩ := s
        simp only at hw ⊢
        cases w <;> simp only [WaiterOk] at hw <;>
          first
            | (rw [hd] at hw; simp at hw; done)
            | (rw [hw.1]; simp)

/-- Witness of the amended C6, a failed pipe and a failed start: the first run ends without
any event, the second with the one event the waiter sends before it panics. -/
theorem startup_failure_witness :
    (∃ s, v1Sync pipeFailure pipeFailureRun = some s ∧
      s.sent = [] ∧ s.handler = .returned true) ∧
    (∃ s, v1Sync startFailure startFailureRun = some s ∧
      s.waiter = .panicked ∧ s.crashed = true ∧
      s.sent = [⟨"error", "fork/exec /usr/bin/rsync: no such file or directory"⟩]) :=
  ⟨⟨_, rfl, rfl,
      ((startup_failure pipeFailure pipeFailureRun _ rfl).1
        (Or.inl (by simp [pipeFailure]))).2.2 rfl⟩,
   ⟨_, rfl,
      ((startup_failure startFailure startFailureRun _ rfl).2 _ rfl rfl rfl).2.2 rfl⟩⟩

/-- Counterexample to C6 as stated: when `cmd.Start()` fails the waiter goroutine sends an
"error" event on the channel (main.go 143-148) and the handler receives it, before the
waiter panics. -/
theorem error_event_when_start_fails :
    ∃ s, v1Sync startFailure startFailureSend = some s ∧
      s.waiter = .panicStart ∧ s.crashed = false ∧
      s.sent = [⟨"error", "fork/exec /usr/bin/rsync: no such file or directory"⟩] ∧
      s.handler = .ssevent ⟨"error", "fork/exec /usr/bin/rsync: no such file or directory"⟩ :=
  ⟨_, rfl, rfl, rfl, rfl, rfl⟩

/-! ## C7: a run without standard error that succeeds -/

theorem dataOf_cons (name : String) (e : Event) (es : List Event) :
    dataOf name (e :: es) =
      if e.name = name then e.data :: dataOf name es else dataOf name es := by
  unfold dataOf
  by_cases h : e.name = name <;> simp [List.filter_cons, h]

theorem lineEvents_append (name : String) (a b : List String) :
    lineEvents name (a ++ b) = lineEvents name a ++ lineEvents name b := by
  simp [lineEvents]

theorem only_stdout (evs : List Event) (hn : Named evs) (he : NoError evs)
    (hs : dataOf "stderr" evs = []) : evs = lineEvents "stdout" (dataOf "stdout" evs) := by
  induction evs with
  | nil => rfl
  | cons e es ih =>
    have hne : e.name ≠ "error" := he e (by simp)
    have hns : e.name ≠ "stderr" := by
      intro h
      rw [dataOf_cons, if_pos h] at hs
      simp at hs
    have hso : e.name = "stdout" := by
      rcases hn e (by simp) with h | h | h
      · exact h
      · exact absurd h hns
      · exact absurd h hne
    rw [dataOf_cons, if_neg hns] at hs
    have ih' := ih (fun x hx => hn x (by simp [hx])) (fun x hx => he x (by simp [hx])) hs
    rw [dataOf_cons, if_pos hso]
    simp only [lineEvents, List.map_cons]
    simp only [lineEvents] at ih'
    rw [← ih']
    obtain ⟨n, d⟩ := e
    simp only at hso
    subst hso
    rfl

theorem readable_nothing (readErr : Option Nat) : readable "" readErr = "" := by
  cases readErr with
  | none => rfl
  | some k =>
    show String.mk (List.take k []) = ""
    rw [List.take_nil]

/-- C7 (as amended): for every run in which the subprocess starts, writes nothing to
standard error and exits with status zero, and in which every line read of standard
output is shorter than 64 KiB, under every interleaving, the events sent so far are an
initial part of the sequence of one `{"stdout", line}` per line of what is read of
standard output (all that is written to it when no read fails), in order, followed by
`{"error", ""}`; once the channel is closed they are that whole sequence; and when no
read fails a run that has ended has closed the channel, with one event per line of
standard output and the terminal event sent. -/
theorem quiet_success_events (env : Env) (sched : List Task) (s : Run)
    (hs : env.starts) (herr : env.stderr = "") (hw : env.waitErr = none)
    (hout : fitsAll env.stdoutRead) (h : v1Sync env sched = some s) :
    (∃ rest, s.sent ++ rest =
        lineEvents "stdout" (lineSplit env.stdoutRead) ++ [⟨"error", ""⟩]) ∧
      (s.closed = true →
        s.sent = lineEvents "stdout" (lineSplit env.stdoutRead) ++ [⟨"error", ""⟩]) ∧
      (env.stdoutReadErr = none → env.stderrReadErr = none → Run.halted env s = true →
        s.closed = true ∧
        s.sent = lineEvents "stdout" (lineSplit env.stdout) ++ [⟨"error", ""⟩]) := by
  have hinv := inv_reachable ⟨sched, h⟩
  have hpipes := pipes_reachable ⟨sched, h⟩
  have hn := inv_named hinv
  have hshape := started_shape hinv hs.2.2
  have hnil : scanned (rawLines env.stderrRead) = [] := by
    unfold Env.stderrRead
    rw [herr, readable_nothing]
    rfl
  have hall : scanned (rawLines env.stdoutRead) = lineSplit env.stdoutRead :=
    scanned_all _ hout
  rw [hnil, hall, hw] at hshape
  have hfull : Terminal "" s.sent →
      dataOf "stdout" s.sent = lineSplit env.stdoutRead →
      dataOf "stderr" s.sent = [] →
      s.sent = lineEvents "stdout" (lineSplit env.stdoutRead) ++ [⟨"error", ""⟩] := by
    rintro ⟨pre, hpre, hne⟩ ho he
    rw [hpre] at ho he hn ⊢
    rw [dataOf_snoc, if_neg (by simp)] at ho he
    rw [only_stdout pre ((named_snoc _ _).1 hn).1 hne he, ho]
  have hclosed : s.closed = true →
      s.sent = lineEvents "stdout" (lineSplit env.stdoutRead) ++ [⟨"error", ""⟩] := by
    intro hc
    obtain ⟨-, -, -, -, -, -, ht, h1, h2, -⟩ := closed_facts hinv hc
    rw [hw] at ht
    rw [hall] at h1
    rw [hnil] at h2
    exact hfull ht h1 h2
  refine ⟨?_, hclosed, ?_⟩
  · rcases hshape with ⟨hne, ⟨r1, h1⟩, ⟨r2, h2⟩, -⟩ | ⟨ht, h1, h2, -⟩
    · have h2' : dataOf "stderr" s.sent = [] := (List.append_eq_nil.1 h2).1
      refine ⟨lineEvents "stdout" r1 ++ [⟨"error", ""⟩], ?_⟩
      rw [← h1, lineEvents_append, List.append_assoc]
      congr 1
      exact only_stdout s.sent hn hne h2'
    · exact ⟨[], by simpa using hfull ht h1 h2⟩
  · intro hro hre hh
    have e1 : env.stdoutRead = env.stdout := by simp [Env.stdoutRead, readable, hro]
    have hfe : fitsAll env.stderr := by
      rw [herr]
      intro raw hraw
      simp [rawLines, splitLines] at hraw
    obtain ⟨hso, hse⟩ := reads_all_no_stop hpipes ⟨hro, hre, e1 ▸ hout, hfe⟩
    have hc := (halted_closed hinv hpipes hs hso hse hh).1
    have := hclosed hc
    rw [e1] at this
    exact ⟨hc, this⟩

/-- Witness of the amended C7, the two scenarios of the claim: the two lines of the success
example give three events, no output gives the one event `{"error", ""}`. -/
theorem quiet_success_events_witness :
    (∃ s, v1Sync listing listingRun = some s ∧ s.closed = true ∧
      s.sent = [⟨"stdout", "total 64K"⟩, ⟨"stdout", "drwxrwxr-x ..."⟩, ⟨"error", ""⟩]) ∧
    (∃ s, v1Sync silent silentRun = some s ∧ s.closed = true ∧
      s.sent = [⟨"error", ""⟩]) :=
  ⟨⟨_, rfl, rfl,
      (quiet_success_events listing listingRun _ ⟨rfl, rfl, rfl⟩ rfl rfl (by decide)
        rfl).2.1 rfl⟩,
   ⟨_, rfl, rfl,
      (quiet_success_events silent silentRun _ ⟨rfl, rfl, rfl⟩ rfl rfl (by decide)
        rfl).2.1 rfl⟩⟩

/-- Counterexample to C7 as stated: the subprocess starts, writes nothing to standard error
and exits with status zero, and the events are not one per line of standard output.  In
the first run the read of standard output fails in the middle of the second of two
lines, and the events are the first line, the part of the second read before, and
`{"error", ""}`; in the second the first of two lines has 65536 bytes, and the only
event is `{"error", ""}`. -/
theorem quiet_run_without_its_lines :
    (∃ s, v1Sync readFailure readFailureRun = some s ∧ Run.halted readFailure s = true ∧
      readFailure.stderr = "" ∧ readFailure.waitErr = none ∧
      lineSplit readFailure.stdout = ["total 64K", "drwxrwxr-x ..."] ∧
      s.sent = [⟨"stdout", "total 64K"⟩, ⟨"stdout", "drwx"⟩, ⟨"error", ""⟩]) ∧
    (∃ s, v1Sync (overlong 65536) overlongRun = some s ∧
      Run.halted (overlong 65536) s = true ∧
      (overlong 65536).stderr = "" ∧ (overlong 65536).waitErr = none ∧
      lineSplit (overlong 65536).stdout = [longLine 65536, "after"] ∧
      s.sent = [⟨"error", ""⟩]) :=
  ⟨⟨_, rfl, rfl, rfl, rfl, rfl, rfl⟩,
   ⟨_, overlong_run 65536 (by decide) (by decide), overlong_halted 65536, rfl, rfl,
     lineSplit_overlong 65536, rfl⟩⟩

/-! ## C8: no deadlock -/

theorem fuel_init (env : Env) :
    Run.init.fuel env =
      6 * ((rawLines env.stdoutRead).length + (rawLines env.stderrRead).length) + 37 := by
  simp only [Run.fuel, Run.init, Reader.rank, Waiter.rank, Handler.rank, linesLeft, Proc.rank]
  omega

/-- C8, the code at the failing input: rsync has two lines of 70000 bytes to write to
standard output.  `Scan` returns false at the first, with 65536 bytes of it taken from
the pipe, and the reader of standard output returns.  Of the 74466 bytes left the pipe
holds 65536: rsync is blocked in its write and does not end, the reader of standard
error is blocked in `Scan` on a pipe that is not closed, the waiter is blocked in
`wg.Wait()` and the handler in its receive.  No task can take a step, the channel is
not closed, no event has been sent, and the handler is inside `v1Sync`, where it holds
`rsyncMutex`. -/
theorem deadlock_after_a_long_line :
    ∃ s, v1Sync (flood 70000) floodRun = some s ∧ Run.halted (flood 70000) s = true ∧
      s.closed = false ∧ s.crashed = false ∧ s.sent = [] ∧ s.handler = .receive ∧
      s.inside = true ∧ s.waiter = .wgWait ∧ s.stdout = .done ∧ s.stderr = .scan ∧
      s.proc = .running ∧ s.wg = 1 ∧ s.stdoutPipe.unread = 74466 ∧
      (flood 70000).pipeSize = 65536 :=
  ⟨_, flood_run 70000 (by decide), flood_halted 70000 (by decide), rfl, rfl, rfl, rfl, rfl,
    rfl, rfl, rfl, rfl, rfl, flood_unread 70000, rfl⟩

/-- No deadlock as long as both scanners read to the end: for every run in which the
subprocess starts, no read fails and every line is shorter than 64 KiB, under every
interleaving: as long as the channel is not closed some task can take a step; the run
has at most `6 * (number of lines) + 37` steps; it can always be continued to its end;
and at its end the channel is closed, the handler has returned from `c.Stream` and
`v1Sync`, every line of both channels has been delivered in order, followed by the
terminal event, and all of it is written to the response. -/
theorem no_deadlock_when_all_is_read (env : Env) (sched : List Task) (s : Run)
    (hs : env.starts) (hr : env.readsAll) (h : v1Sync env sched = some s) :
    (s.closed = false → ∃ t s', s.step env t = some s') ∧
      sched.length + s.fuel env ≤
        6 * ((rawLines env.stdout).length + (rawLines env.stderr).length) + 37 ∧
      (∃ more s', Run.exec env s more = some s' ∧ Run.halted env s' = true) ∧
      (Run.halted env s = true →
        s.closed = true ∧ s.handler = .returned false ∧
        dataOf "stdout" s.sent = lineSplit env.stdout ∧
        dataOf "stderr" s.sent = lineSplit env.stderr ∧
        Terminal (errorData env.waitErr) s.sent ∧ s.body = frames s.sent) := by
  have hinv := inv_reachable ⟨sched, h⟩
  have hpipes := pipes_reachable ⟨sched, h⟩
  obtain ⟨hso, hse⟩ := reads_all_no_stop hpipes hr
  refine ⟨?_, ?_, ?_, ?_⟩
  · intro hc
    have hcr : s.crashed = false := by
      cases hcr : s.crashed
      · rfl
      · obtain ⟨-, -, -, -, d, hd, -⟩ := crashed_facts hinv hcr
        rw [hs.2.2] at hd; simp at hd
    have hh : ∀ p, s.handler ≠ .returned p := by
      intro p hp
      rcases returned_facts hinv hp with ⟨-, h2⟩ | ⟨-, h2, -⟩
      · rw [hc] at h2; simp at h2
      · rcases h2 with h2 | h2
        · exact absurd hs.1 h2
        · exact absurd hs.2.1 h2
    obtain ⟨t, ht⟩ := progress env s hinv hpipes hcr hh hso hse
    obtain ⟨s', hs'⟩ := Option.isSome_iff_exists.1 ht
    exact ⟨t, s', hs'⟩
  · have := fuel_exec env sched Run.init s (inv_init env) (pipes_init env) h
    have e1 : env.stdoutRead = env.stdout := by simp [Env.stdoutRead, readable, hr.1]
    have e2 : env.stderrRead = env.stderr := by simp [Env.stderrRead, readable, hr.2.1]
    rw [fuel_init, e1, e2] at this
    exact this
  · exact can_finish env (s.fuel env) s hinv hpipes (Nat.le_refl _)
  · intro hh
    obtain ⟨hc, hret⟩ := halted_closed hinv hpipes hs hso hse hh
    obtain ⟨-, -, -, -, -, -, ht, h1, h2, -⟩ := closed_facts hinv hc
    have e1 : env.stdoutRead = env.stdout := by simp [Env.stdoutRead, readable, hr.1]
    have e2 : env.stderrRead = env.stderr := by simp [Env.stderrRead, readable, hr.2.1]
    rw [e1, scanned_all _ hr.2.2.1] at h1
    rw [e2, scanned_all _ hr.2.2.2] at h2
    refine ⟨hc, hret, h1, h2, ht, ?_⟩
    have hw := inv_written hinv
    rw [hret] at hw
    exact hw

/-- The run of the error example: its 28 steps are within the bound of 49, and at its
end nothing can step, the channel is closed and both lines are delivered. -/
theorem no_deadlock_when_all_is_read_witness :
    ∃ s, v1Sync failing failingRun = some s ∧ Run.halted failing s = true ∧
      failingRun.length + s.fuel failing ≤ 49 ∧
      s.closed = true ∧ s.handler = .returned false ∧
      dataOf "stdout" s.sent = ["hi there"] ∧ dataOf "stderr" s.sent = ["error"] ∧
      Terminal "exit status 1" s.sent ∧ s.body = frames s.sent :=
  ⟨_, rfl, rfl,
    (no_deadlock_when_all_is_read failing failingRun _ ⟨rfl, rfl, rfl⟩
      ⟨rfl, rfl, by decide, by decide⟩ rfl).2.1,
    (no_deadlock_when_all_is_read failing failingRun _ ⟨rfl, rfl, rfl⟩
      ⟨rfl, rfl, by decide, by decide⟩ rfl).2.2.2 rfl⟩

/-! ## C10: the readers end before the channel is closed -/

/-- C10: under every interleaving of every run, whenever the waiter goroutine is past
`wg.Wait()` (about to call `cmd.Wait()`, sending the terminal event, about to close the
channel, or done), both reader goroutines have returned; so they have when the process
has been awaited and when the channel is closed; a reader that is blocked in its send
finds the channel open; and no reader goroutine ever panics. -/
theorem readers_finish_before_close (env : Env) (sched : List Task) (s : Run)
    (h : v1Sync env sched = some s) :
    (s.waiter.pastWgWait = true → s.stdout = .done ∧ s.stderr = .done) ∧
      (s.proc = .exited → s.stdout = .done ∧ s.stderr = .done) ∧
      (s.closed = true → s.stdout = .done ∧ s.stderr = .done) ∧
      (∀ line, s.stdout = .send line ∨ s.stderr = .send line → s.closed = false) ∧
      s.stdout ≠ .panicked ∧ s.stderr ≠ .panicked := by
  have hinv := inv_reachable ⟨sched, h⟩
  rcases hinv with he | ⟨hp1, hp2, hw, ho, he, hwg, hn, hwr, hl⟩
  · obtain ⟨h1, h2, -, -, h5, -, h7, h8⟩ := early_facts he
    refine ⟨?_, ?_, ?_, ?_, ?_, ?_⟩
    · rw [h1]; simp [Waiter.pastWgWait]
    · rw [h2]; simp
    · rw [h5]; simp
    · intro _ _; exact h5
    · rcases h7 with h7 | h7 <;> rw [h7] <;> simp
    · rcases h8 with h8 | h8 <;> rw [h8] <;> simp
  · obtain ⟨hd, so, se, w, p, wg, cl, cr, po, pe, sent, body⟩ := s
    simp only at hw ho he hwg hn hwr hl ⊢
    have hso : so ≠ .panicked := by
      intro hso; subst hso; simp [ReaderOk] at ho
    have hse : se ≠ .panicked := by
      intro hse; subst hse; simp [ReaderOk] at he
    refine ⟨?_, ?_, ?_, ?_, hso, hse⟩
    · cases w <;> simp only [WaiterOk] at hw <;> simp [Waiter.pastWgWait]
      · exact ⟨hw.2.2.2.1, hw.2.2.2.2.1⟩
      · exact ⟨hw.2.2.2.2.1, hw.2.2.2.2.2.1⟩
      · exact ⟨hw.2.2.2.1, hw.2.2.2.2.1⟩
      · exact ⟨hw.2.2.2.1, hw.2.2.2.2.1⟩
    · intro hp
      subst hp
      cases w <;> simp [WaiterOk] at hw
      · exact ⟨hw.2.2.2.1, hw.2.2.2.2.1⟩
      · exact ⟨hw.2.2.1, hw.2.2.2.1⟩
      · exact ⟨hw.2.2.1, hw.2.2.2.1⟩
    · intro hc
      subst hc
      cases w <;> simp [WaiterOk] at hw
      exact ⟨hw.2.2.2.1, hw.2.2.2.2.1⟩
    · intro line hl'
      cases hcl : cl
      · rfl
      · subst hcl
        cases w <;> simp [WaiterOk] at hw
        obtain ⟨-, -, -, h4, h5, -⟩ := hw
        subst h4 h5
        simp at hl'

/-- Witness of C10, the run of the error example stopped when the waiter has sent the terminal
event and not yet closed the channel: both readers have returned. -/
theorem readers_finish_before_close_witness :
    ∃ s, v1Sync failing (failingRun.take 23) = some s ∧
      s.waiter = .close ∧ s.closed = false ∧ s.stdout = .done ∧ s.stderr = .done :=
  ⟨_, rfl, rfl, rfl,
    (readers_finish_before_close failing (failingRun.take 23) _ rfl).1 rfl⟩

/-! ## C4: one rsync at a time -/

theorem unlocks_other (t : Task) (r : Run) (ht : t ≠ .handler) : r.unlocks t = false := by
  cases t <;> simp [Run.unlocks] at ht ⊢

theorem handlerStep_inside (env : Env) (r r' : Run) (hs : r.handlerStep env = some r') :
    (r.unlocks .handler = true → r.inside = true ∧ r'.inside = false) ∧
      (r.unlocks .handler = false → r'.inside = r.inside) := by
  obtain ⟨hd, so, se, w, p, wg, cl, cr, po, pe, sent, body⟩ := r
  cases hd <;> simp only [Run.handlerStep, Stream] at hs
  case stdoutPipe =>
    split at hs <;> simp only [Option.some.injEq] at hs <;> subst hs <;>
      simp [Run.unlocks, Run.inside]
  case stderrPipe =>
    split at hs <;> simp only [Option.some.injEq] at hs <;> subst hs <;>
      simp [Run.unlocks, Run.inside]
  case receive =>
    split at hs
    · simp only [Option.some.injEq] at hs; subst hs
      simp [Run.unlocks, Run.inside]
    · simp at hs
  case returned b => simp at hs
  all_goals
    simp only [Option.some.injEq] at hs
    subst hs
    simp [Run.unlocks, Run.inside]

theorem step_inside (env : Env) (t : Task) (r r' : Run) (h : r.step env t = some r') :
    (r.unlocks t = true → r.inside = true ∧ r'.inside = false) ∧
      (r.unlocks t = false → r'.inside = r.inside) := by
  by_cases ht : t = .handler
  · subst ht
    exact handlerStep_inside env r r' (handler_step_eq env r r' h)
  · have hu := unlocks_other t r ht
    obtain ⟨-, he⟩ := other_step_effect env t r r' ht h
    refine ⟨fun hc => ?_, fun _ => ?_⟩
    · rw [hu] at hc; simp at hc
    · rcases he with ⟨h1, -⟩ | ⟨h1, e, h2, -⟩
      · simp [Run.inside, h1]
      · simp [Run.inside, h1, h2]

theorem serverOk_init (envs : Nat → Env) : ServerOk envs Server.init := by
  refine ⟨?_, ?_, ?_⟩
  · intro i r h; simp [Server.init] at h
  · intro i j h; simp [Server.init, Server.inside] at h
  · intro _ i; simp [Server.init, Server.inside]

theorem inside_update (sv : Server) (m c : Bool) (i j : Nat) (r : Run) :
    Server.inside { rsyncMutex := m, requests := Function.update sv.requests i (some r),
                    crashed := c } j = if j = i then r.inside else sv.inside j := by
  unfold Server.inside
  by_cases hj : j = i
  · subst hj; simp
  · simp [Function.update_noteq hj, hj]

theorem serverOk_step (envs : Nat → Env) (a : Action) (sv sv' : Server)
    (ha : a.isClientGone = false) (h : sv.step envs a = some sv')
    (hok : ServerOk envs sv) : ServerOk envs sv' := by
  obtain ⟨h1, h2, h3⟩ := hok
  unfold Server.step at h
  split at h
  · simp at h
  cases a
  case clientGone i => simp [Action.isClientGone] at ha
  case lock i =>
    simp only at h
    split at h
    · simp at h
    rename_i hnone
    split at h
    · simp at h
    rename_i hm
    simp only [Option.some.injEq] at h
    subst h
    have hfree := h3 (by simpa using hm)
    refine ⟨?_, ?_, ?_⟩
    · intro j r hr
      by_cases hj : j = i
      · subst hj
        simp only [Function.update_same, Option.some.injEq] at hr
        subst hr
        exact inv_init _
      · simp only [Function.update_noteq hj] at hr
        exact h1 j r hr
    · intro j k hj hk
      rw [inside_update] at hj hk
      by_cases hji : j = i
      · by_cases hki : k = i
        · rw [hji, hki]
        · rw [if_neg hki, hfree k] at hk; simp at hk
      · rw [if_neg hji, hfree j] at hj; simp at hj
    · intro hmu; simp at hmu
  case task i t =>
    simp only at h
    split at h
    · simp at h
    rename_i r hr
    split at h
    · simp at h
    rename_i r' hstep
    simp only [Option.some.injEq] at h
    subst h
    obtain ⟨hu1, hu2⟩ := step_inside (envs i) t r r' hstep
    have hini : sv.inside i = r.inside := by simp [Server.inside, hr]
    refine ⟨?_, ?_, ?_⟩
    · intro j r1 hr1
      by_cases hj : j = i
      · subst hj
        simp only [Function.update_same, Option.some.injEq] at hr1
        subst hr1
        exact inv_step _ t r _ (h1 _ r hr) hstep
      · simp only [Function.update_noteq hj] at hr1
        exact h1 j r1 hr1
    · intro j k hj hk
      rw [inside_update] at hj hk
      have hmono : r'.inside = true → r.inside = true := by
        intro hr'
        cases hu : r.unlocks t
        · rw [← hu2 hu]; exact hr'
        · exact (hu1 hu).1
      by_cases hji : j = i
      · by_cases hki : k = i
        · rw [hji, hki]
        · rw [if_neg hki] at hk
          rw [if_pos hji] at hj
          rw [hji]
          exact h2 i k (hini ▸ hmono hj) hk
      · rw [if_neg hji] at hj
        by_cases hki : k = i
        · rw [if_pos hki] at hk
          rw [hki]
          exact h2 j i hj (hini ▸ hmono hk)
        · rw [if_neg hki] at hk
          exact h2 j k hj hk
    · intro hmu j
      rw [inside_update]
      simp only at hmu
      cases hu : r.unlocks t
      · rw [hu] at hmu
        simp only [Bool.false_eq_true, if_false] at hmu
        have hall := h3 hmu
        by_cases hji : j = i
        · rw [if_pos hji, hu2 hu, ← hini]; exact hall i
        · rw [if_neg hji]; exact hall j
      · obtain ⟨hin, hout⟩ := hu1 hu
        by_cases hji : j = i
        · rw [if_pos hji]; exact hout
        · rw [if_neg hji]
          cases hj : sv.inside j
          · rfl
          · exact absurd (h2 j i hj (hini ▸ hin)) hji

theorem serverOk_exec (envs : Nat → Env) (acts : List Action) (sv sv' : Server)
    (hstay : ∀ a ∈ acts, a.isClientGone = false)
    (h : Server.exec envs sv acts = some sv') (hok : ServerOk envs sv) :
    ServerOk envs sv' := by
  induction acts generalizing sv with
  | nil =>
    simp only [Server.exec, Option.some.injEq] at h
    exact h ▸ hok
  | cons a as ih =>
    simp only [Server.exec] at h
    split at h
    · simp at h
    · rename_i sv1 hstep
      exact ih sv1 (fun a ha => hstay a (by simp [ha])) h
        (serverOk_step envs _ sv sv1 (hstay _ (by simp)) hstep hok)

theorem running_inside {env : Env} {r : Run} (hinv : Inv env r) (hp : r.proc = .running) :
    r.inside = true := by
  rcases hinv with he | ⟨-, -, hw, -, -, -, -, -, hl⟩
  · rw [(early_facts he).2.1] at hp; simp at hp
  · obtain ⟨hd, so, se, w, p, wg, cl, cr, po, pe, sent, body⟩ := r
    simp only at hw hl hp ⊢
    subst hp
    have hcl : cl = false := by
      cases w <;> simp only [WaiterOk] at hw <;> first
        | exact hw.2.2.2.1
        | exact hw.2.2.2.2.2.1
        | exact absurd hw.1 (by simp)
    subst hcl
    rcases hd with _ | _ | _ | _ | _ | _ | _ | e | (_ | _) | (_ | _) <;>
      simp [HandlerOk] at hl <;> simp [Run.inside]

theorem start_inside {env : Env} {r : Run} (hinv : Inv env r) (hw' : r.waiter = .start) :
    r.inside = true := by
  rcases hinv with he | ⟨-, -, hw, -, -, -, -, -, hl⟩
  · rw [(early_facts he).1] at hw'; simp at hw'
  · obtain ⟨hd, so, se, w, p, wg, cl, cr, po, pe, sent, body⟩ := r
    simp only at hw hl hw' ⊢
    subst hw'
    simp only [WaiterOk] at hw
    obtain ⟨-, -, -, -, hcl, -⟩ := hw
    subst hcl
    rcases hd with _ | _ | _ | _ | _ | _ | _ | e | (_ | _) | (_ | _) <;>
      simp [HandlerOk] at hl <;> simp [Run.inside]

theorem outside_over {env : Env} {r : Run} (hinv : Inv env r) (ho : r.inside = false) :
    r.over := by
  have hr : ∃ p, r.handler = .returned p := by
    unfold Run.inside at ho
    split at ho
    · exact ⟨_, ‹_›⟩
    · simp at ho
  obtain ⟨p, hp⟩ := hr
  rcases returned_facts hinv hp with ⟨h1, h2⟩ | ⟨h1, -, h3⟩
  · subst h1
    obtain ⟨-, hw, hso, hse, hpr, -, ht, -⟩ := closed_facts hinv h2
    exact Or.inl ⟨hp, h2, hpr, hw, hso, hse, _, ht⟩
  · subst h1
    obtain ⟨a1, a2, a3, a4, -, -, -, -, -, a10, -⟩ := h3
    exact Or.inr ⟨hp, a4, a3, a1, a2, a10⟩

/-- One rsync at a time as long as no client goes away: in every state the server can
then reach, whatever the number of requests and the order of the steps, at most one
subprocess is active; a subprocess is active, or about to be started, only in a
request that is inside `v1Sync`, which holds the locked mutex; and while a request is
inside `v1Sync`, the run of every other request that ever took the mutex is over: it
released the mutex after its terminal "error" event was handed over and the channel
closed, with its process awaited, or it left by the panic of a failed pipe without
having started a process. -/
theorem one_rsync_while_clients_stay (envs : Nat → Env) (acts : List Action) (sv : Server)
    (hstay : ∀ a ∈ acts, a.isClientGone = false)
    (h : Server.exec envs Server.init acts = some sv) :
    (∀ i j, sv.active i = true → sv.active j = true → i = j) ∧
      (∀ i, sv.active i = true → sv.inside i = true) ∧
      (∀ i r, sv.requests i = some r → r.waiter = .start → sv.inside i = true) ∧
      (∀ i, sv.inside i = true → sv.rsyncMutex = true) ∧
      (∀ i j r, sv.inside j = true → i ≠ j → sv.requests i = some r → r.over) := by
  obtain ⟨h1, h2, h3⟩ := serverOk_exec envs acts _ sv hstay h (serverOk_init envs)
  have hai : ∀ i, sv.active i = true → sv.inside i = true := by
    intro i hi
    unfold Server.active at hi
    unfold Server.inside
    split at hi
    · rename_i r hr
      exact running_inside (h1 i r hr) (by simpa using hi)
    · simp at hi
  refine ⟨?_, hai, ?_, ?_, ?_⟩
  · intro i j hi hj
    exact h2 i j (hai i hi) (hai j hj)
  · intro i r hr hw
    unfold Server.inside
    rw [hr]
    exact start_inside (h1 i r hr) hw
  · intro i hi
    cases hm : sv.rsyncMutex
    · rw [h3 hm i] at hi; simp at hi
    · rfl
  · intro i j r hj hij hr
    apply outside_over (h1 i r hr)
    cases hi : r.inside
    · rfl
    · have : sv.inside i = true := by simp [Server.inside, hr, hi]
      exact absurd (h2 i j this hj) hij

/-- Two requests whose clients stay: when request 1 has started its rsync, the run of
request 0 is over, with its terminal event sent. -/
theorem one_rsync_while_clients_stay_witness :
    ∃ sv, Server.exec (fun _ => silent) Server.init clientsStay = some sv ∧
      sv.active 1 = true ∧ sv.active 0 = false ∧
      ∃ r, sv.requests 0 = some r ∧ r.sent = [⟨"error", ""⟩] ∧ r.over :=
  ⟨_, rfl, rfl, rfl, _, rfl, rfl,
    (one_rsync_while_clients_stay (fun _ => silent) clientsStay _ (by decide) rfl).2.2.2.2
      0 1 _ rfl (by decide) rfl⟩

/-- C4, the code at the failing input: the client of request 0 goes away after the
first event; `c.Stream` returns and the deferred `rsyncMutex.Unlock()` runs while the
rsync of request 0 is running and before any "error" event; request 1 takes the mutex
and starts a second rsync, and both subprocesses are active at once. -/
theorem two_rsyncs_when_client_leaves :
    ∃ sv, Server.exec (fun _ => listing) Server.init clientLeaves = some sv ∧
      sv.active 0 = true ∧ sv.active 1 = true ∧ sv.inside 0 = false ∧
      (sv.requests 0).map (fun r => r.sent) = some [⟨"stdout", "total 64K"⟩] :=
  ⟨_, rfl, rfl, rfl, rfl, rfl⟩

/-! ## C9: the fallback listener of main -/

theorem servers_acc {L : Type} (listeners acc : List L) :
    listeners.foldl (fun servers listener => servers ++ [listener]) acc = acc ++ listeners := by
  induction listeners generalizing acc with
  | nil => simp
  | cons l ls ih => simp [ih]

theorem servers_eq {L : Type} (listeners : List L) : servers listeners = listeners := by
  simp [servers, servers_acc]

theorem len_le_zero (s : String) : len s ≤ 0 ↔ s = "" := by
  obtain ⟨cs⟩ := s
  cases cs with
  | nil => simp [len, String.utf8ByteSize, String.utf8ByteSize.go]
  | cons c cs =>
    have := c.utf8Size_pos
    simp only [len, String.utf8ByteSize, String.utf8ByteSize.go]
    constructor
    · intro h; omega
    · intro h
      have := congrArg String.data h
      simp at this

/-- C9: `main` binds the fallback listener if and only if the socket activation
supplied no listener, and its address is host, a colon and port, where host is `HOST`,
or "localhost" when `HOST` is unset or empty, and port is `PORT`, or "8080" when `PORT`
is unset or empty; with neither set the address is "localhost:8080". -/
theorem fallback_listener {L : Type} (listeners : List L) (PORT HOST : Option String) :
    main (.ok listeners) PORT HOST = .ok (fallback listeners PORT HOST) ∧
      ((fallback listeners PORT HOST).isSome = true ↔ listeners.length = 0) ∧
      (listeners.length = 0 →
        fallback listeners PORT HOST =
          some ((match HOST with
                  | none => "localhost"
                  | some host => if host = "" then "localhost" else host) ++ ":" ++
                (match PORT with
                  | none => "8080"
                  | some port => if port = "" then "8080" else port))) ∧
      fallback ([] : List L) none none = some "localhost:8080" := by
  refine ⟨rfl, ?_, ?_, ?_⟩
  · unfold fallback
    rw [servers_eq]
    by_cases hl : listeners.length = 0 <;> simp [hl]
  · intro hl
    unfold fallback
    rw [servers_eq, if_pos (by omega)]
    simp only [len_le_zero]
    cases HOST <;> cases PORT <;> simp [getenv]
  · rfl

end NeonImageSyncd
